import Mathlib

/-
  Verification of the pubsub routing core of the zenoh router
  (src/zenoh-router/src/routing/pubsub.rs).

  The Rust code is shallowly embedded: the mutable Tables state becomes an
  explicit Lean structure that every operation threads; calls on the outbound
  primitives channel (subscriber, forget_subscriber, data) become elements of
  an event list returned next to the new state.  Operations of the resource
  service and topology service that live outside the provided source file
  (resource.rs, router.rs, the uhlc crate) are modelled from the spec and
  marked as such in their doc comments.
-/

namespace ZenohPubsub

/-- The whatami tier tag of a node or face (zenoh_protocol::core::whatami). -/
inductive Whatami where
  | router
  | peer
  | client
deriving DecidableEq

/-- Subscription mode (zenoh_protocol::core::SubMode). -/
inductive SubMode where
  | push
  | pull
deriving DecidableEq

/-- Reliability tag (zenoh_protocol::core::Reliability). -/
inductive Reliability where
  | bestEffort
  | reliable
deriving DecidableEq

/-- Congestion control tag (zenoh_protocol::core::CongestionControl). -/
inductive CongestionControl where
  | drop
  | block
deriving DecidableEq

/-- SubInfo from zenoh_protocol: reliability, mode and optional period. -/
structure SubInfo where
  reliability : Reliability
  mode : SubMode
  period : Option Nat
deriving DecidableEq

/-- DataInfo from zenoh_protocol::proto.  Timestamps are embedded as Nat. -/
structure DataInfo where
  sourceId : Option Nat := none
  sourceSn : Option Nat := none
  firstRouterId : Option Nat := none
  firstRouterSn : Option Nat := none
  timestamp : Option Nat := none
  kind : Option Nat := none
  encoding : Option Nat := none
deriving DecidableEq

/-- Modelled from the spec: the external uhlc::HLC, consumed only through
update_with_timestamp (which may refuse a timestamp on clock-skew grounds)
and new_timestamp (which yields a fresh timestamp).  The acceptance window
and the fresh stamp are abstracted into two fields. -/
structure HLC where
  accepts : Nat → Bool
  fresh : Nat

/-- Per-face context stored inside a resource (routing::resource::Context).
The face back-reference is embedded by the two immutable fields of FaceState
that routing reads through it: its id and its whatami tag. -/
structure Context where
  faceId : Nat
  faceWhatami : Whatami
  subs : Option SubInfo
  lastValues : List (String × (Option DataInfo × Nat))
deriving DecidableEq

/-- One destination of a DataRoute: destination face (id and whatami of the
Arc-cloned FaceState) plus the wire key chosen for it. -/
structure RouteEntry where
  dstId : Nat
  dstWhatami : Whatami
  reskey : String
deriving DecidableEq

/-- DataRoute = HashMap from face id to (face, reskey); embedded as a list of
entries with pairwise distinct dstId, in insertion order. -/
abbrev DataRoute := List RouteEntry

/-- A resource (routing::resource::Resource), keyed by its canonical name.
Resources live in a central arena (Tables.resources); the weak match
references of the source are embedded as the list of names of the matching
resources, and payloads (RBuf) as Nat.  -/
structure Resource where
  name : String
  routerSubs : List Nat
  peerSubs : List Nat
  contexts : List Context
  resMatches : List String
  route : DataRoute
deriving DecidableEq

/-- A face (routing::face::FaceState).  The mappings field embeds the
face-local prefix-id table consumed by get_mapping (spec section 6). -/
structure Face where
  id : Nat
  pid : Nat
  whatami : Whatami
  localSubs : List String
  remoteSubs : List String
  mappings : List (Nat × String)
deriving DecidableEq

/-- A tier network as consumed from the topology service: graph nodes in
index order (each carrying its pid) and, for each tree index, the direct
children (as graph node indices) on the spanning tree with that root. -/
structure Net where
  nodes : List Nat
  childs : List (List Nat)
deriving DecidableEq

/-- The Tables state container (routing::router::Tables), restricted to the
fields the pubsub module touches.  The two nets are total here because the
source unwraps them on every use. -/
structure Tables where
  faces : List Face
  resources : List Resource
  routerSubsIdx : List String
  peerSubsIdx : List String
  pid : Nat
  whatami : Whatami
  routersNet : Net
  peersNet : Net
  hlc : Option HLC
  rootName : String

/-- An outbound primitive call recorded during an operation: subscriber,
forget_subscriber or data, together with the destination face id. -/
inductive Event where
  | subscriber (dst : Nat) (reskey : String) (sub : SubInfo) (ctx : Option Nat)
  | forgetSubscriber (dst : Nat) (reskey : String) (ctx : Option Nat)
  | dataMsg (dst : Nat) (reskey : String) (payload : Nat) (rel : Reliability)
      (cc : CongestionControl) (info : Option DataInfo) (ctx : Option Nat)
deriving DecidableEq

/-- Find a resource by name in the arena (upgrading of an Arc handle). -/
def findRes : List Resource → String → Option Resource
  | [], _ => none
  | r :: rs, n => if r.name = n then some r else findRes rs n

/-- Resource::get_resource resolved against the arena. -/
def getRes (t : Tables) (n : String) : Option Resource :=
  findRes t.resources n

/-- Find a face by its face id. -/
def findFace : List Face → Nat → Option Face
  | [], _ => none
  | f :: fs, i => if f.id = i then some f else findFace fs i

/-- Tables::get_face: find a face by its PeerId. -/
def findFaceByPid : List Face → Nat → Option Face
  | [], _ => none
  | f :: fs, p => if f.pid = p then some f else findFaceByPid fs p

/-- Assoc lookup used for face-local prefix mappings. -/
def lookupAssoc : List (Nat × String) → Nat → Option String
  | [], _ => none
  | (k, v) :: rest, i => if k = i then some v else lookupAssoc rest i

/-- Modelled from the spec: Tables::get_mapping resolves a face-local prefix
id to a resource; id 0 denotes the root resource (empty prefix name), other
ids are resolved through the face's mapping table. -/
def getMapping (f : Face) (rid : Nat) : Option String :=
  if rid = 0 then some "" else lookupAssoc f.mappings rid

/-- Index of a pid in the node list of a net (Network::get_idx). -/
def idxOfNat : List Nat → Nat → Option Nat
  | [], _ => none
  | x :: xs, p => if x = p then some 0 else (idxOfNat xs p).map (· + 1)

/-- net.trees with a tree index: the direct children of that tree root. -/
def treeChilds (net : Net) (treeSid : Nat) : List Nat :=
  (net.childs.get? treeSid).getD []

/-- net.graph node lookup: the pid stored at a graph index. -/
def nodePid (net : Net) (i : Nat) : Option Nat :=
  net.nodes.get? i

/-- Modelled from the spec: Resource::decl_key returns a wire key suitable
for declaring the resource to a face; key compression is out of scope, so
the key is the full resource name. -/
def declKey (resName : String) : String := resName

/-- Modelled from the spec: Resource::get_best_key; key compression is out
of scope, so the best key is prefix name concatenated with the suffix. -/
def getBestKey (pfx suffix : String) : String := pfx ++ suffix

/-- The propagate_data loop-suppression predicate (pubsub.rs line 681),
taking the local whatami, then id and whatami of the source face and of the
destination face. -/
def propagateData (w : Whatami) (srcId : Nat) (srcW : Whatami)
    (dstId : Nat) (dstW : Whatami) : Bool :=
  decide (srcId ≠ dstId) &&
    match w with
    | .router =>
        (decide (srcW ≠ .peer) || decide (dstW ≠ .peer)) &&
        (decide (srcW ≠ .router) || decide (dstW ≠ .router))
    | _ => decide (srcW = .client) || decide (dstW = .client)

/-- treat_timestamp (pubsub.rs line 806): with a timestamp present, the HLC
is updated and may refuse; without one, a fresh stamp is added; with no
DataInfo at all, a fresh DataInfo carrying only a timestamp is built. -/
def newDatainfo (ts : Nat) : DataInfo :=
  { sourceId := none, sourceSn := none, firstRouterId := none,
    firstRouterSn := none, timestamp := some ts, kind := none,
    encoding := none }

/-- treat_timestamp itself. -/
def treatTimestamp (h : HLC) (info : Option DataInfo) :
    Except String (Option DataInfo) :=
  match info with
  | some di =>
      match di.timestamp with
      | some ts =>
          if h.accepts ts then Except.ok (some di)
          else Except.error "clock skew"
      | none => Except.ok (some { di with timestamp := some h.fresh })
  | none => Except.ok (some (newDatainfo h.fresh))

/-- The guard of propagate_simple_subscription (pubsub.rs line 38): skip the
source face, skip faces already told to subscribe, and apply the tier rule
of the local node. -/
def simplePropaCond (w : Whatami) (src dst : Face) (resName : String) : Bool :=
  decide (src.id ≠ dst.id) && !(decide (resName ∈ dst.localSubs)) &&
    (match w with
     | .router => decide (dst.whatami = Whatami.client)
     | .peer => decide (dst.whatami = Whatami.client)
     | _ => decide (src.whatami = Whatami.client) ||
            decide (dst.whatami = Whatami.client))

/-- propagate_simple_subscription (pubsub.rs line 31): push the resource to
the local_subs of each admitted face and emit a subscriber primitive with no
routing context to it. -/
def propagateSimpleSubscription (t : Tables) (src : Face) (resName : String)
    (si : SubInfo) : Tables × List Event :=
  ({ t with
      faces := t.faces.map (fun d =>
        if simplePropaCond t.whatami src d resName then
          { d with localSubs := d.localSubs ++ [resName] }
        else d) },
   t.faces.filterMap (fun d =>
     if simplePropaCond t.whatami src d resName then
       some (Event.subscriber d.id (declKey resName) si none)
     else none))

/-- The tree walk of the register functions: look up the root in the net,
visit each direct child of the tree rooted there, resolve its owning face
and emit a subscriber carrying the tree index, skipping the source face.
Missing roots, missing pids and missing faces are logged and skipped. -/
def treeWalkSubscriber (t : Tables) (net : Net) (root : Nat) (srcFaceId : Nat)
    (resName : String) (si : SubInfo) : List Event :=
  match idxOfNat net.nodes root with
  | none => []
  | some treeSid =>
      (treeChilds net treeSid).filterMap (fun child =>
        match nodePid net child with
        | none => none
        | some cpid =>
            match findFaceByPid t.faces cpid with
            | none => none
            | some someface =>
                if someface.id ≠ srcFaceId then
                  some (Event.subscriber someface.id (declKey resName) si
                    (some treeSid))
                else none)

/-- The matching tree walk of the unregister functions, emitting
forget_subscriber with the tree index. -/
def treeWalkForget (t : Tables) (net : Net) (root : Nat) (srcFaceId : Nat)
    (resName : String) : List Event :=
  match idxOfNat net.nodes root with
  | none => []
  | some treeSid =>
      (treeChilds net treeSid).filterMap (fun child =>
        match nodePid net child with
        | none => none
        | some cpid =>
            match findFaceByPid t.faces cpid with
            | none => none
            | some someface =>
                if someface.id ≠ srcFaceId then
                  some (Event.forgetSubscriber someface.id (declKey resName)
                    (some treeSid))
                else none)

/-- HashSet-style insertion into a tables index. -/
def insStr (n : String) (idx : List String) : List String :=
  if n ∈ idx then idx else idx ++ [n]

/-- HashSet-style removal from a tables index. -/
def rmStr (n : String) (idx : List String) : List String :=
  idx.filter (fun m => decide (m ≠ n))

/-- Insert a pid into the router tier-set of the named resource. -/
def bumpRouter (n : String) (p : Nat) (r : Resource) : Resource :=
  if r.name = n then { r with routerSubs := r.routerSubs ++ [p] } else r

/-- Insert a pid into the peer tier-set of the named resource. -/
def bumpPeer (n : String) (p : Nat) (r : Resource) : Resource :=
  if r.name = n then { r with peerSubs := r.peerSubs ++ [p] } else r

/-- Retain-style removal of a pid from the router tier-set. -/
def dropRouter (n : String) (p : Nat) (r : Resource) : Resource :=
  if r.name = n then
    { r with routerSubs := r.routerSubs.filter (fun x => decide (x ≠ p)) }
  else r

/-- Retain-style removal of a pid from the peer tier-set. -/
def dropPeer (n : String) (p : Nat) (r : Resource) : Resource :=
  if r.name = n then
    { r with peerSubs := r.peerSubs.filter (fun x => decide (x ≠ p)) }
  else r

/-- The state mutation of register_router_subscription line 70: insert the
router pid into the resource's tier-set and the resource into the tables
index. -/
def addRouterSub (t : Tables) (resName : String) (p : Nat) : Tables :=
  { t with
    resources := t.resources.map (bumpRouter resName p),
    routerSubsIdx := insStr resName t.routerSubsIdx }

/-- The state mutation of register_peer_subscription line 156. -/
def addPeerSub (t : Tables) (resName : String) (p : Nat) : Tables :=
  { t with
    resources := t.resources.map (bumpPeer resName p),
    peerSubsIdx := insStr resName t.peerSubsIdx }

/-- register_peer_subscription (pubsub.rs line 146): idempotent on an
already-registered pid; otherwise insert into tier-set and index and walk
the peers net. -/
def registerPeerSubscription (t : Tables) (face : Face) (resName : String)
    (si : SubInfo) (p : Nat) : Tables × List Event :=
  match getRes t resName with
  | none => (t, [])
  | some r =>
      if p ∈ r.peerSubs then (t, [])
      else
        let t1 := addPeerSub t resName p
        (t1, treeWalkSubscriber t1 t1.peersNet p face.id resName si)

/-- The guarded part of register_router_subscription (pubsub.rs line 67):
on a new pid insert into tier-set and index, walk the routers net, and when
the declaring face is not a peer also register a peer subscription for the
local pid. -/
def registerRouterCore (t : Tables) (face : Face) (resName : String)
    (si : SubInfo) (router : Nat) : Tables × List Event :=
  match getRes t resName with
  | none => (t, [])
  | some r =>
      if router ∈ r.routerSubs then (t, [])
      else
        if face.whatami ≠ Whatami.peer then
          let t1 := addRouterSub t resName router
          let evs1 := treeWalkSubscriber t1 t1.routersNet router face.id
            resName si
          let (tp, evsp) := registerPeerSubscription t1 face resName si
            t1.pid
          (tp, evs1 ++ evsp)
        else
          let t1 := addRouterSub t resName router
          (t1, treeWalkSubscriber t1 t1.routersNet router face.id resName si)

/-- register_router_subscription (pubsub.rs line 60): the guarded core and,
in every case, the simple client propagation. -/
def registerRouterSubscription (t : Tables) (face : Face) (resName : String)
    (si : SubInfo) (router : Nat) : Tables × List Event :=
  let (t2, evs2) := registerRouterCore t face resName si router
  let (t3, evs3) := propagateSimpleSubscription t2 face resName si
  (t3, evs2 ++ evs3)

/-- The per-context update of register_client_subscription (pubsub.rs line
247): an existing context only has its SubInfo replaced when the stored one
is Pull-mode or absent; a missing context is created fresh. -/
def upsertClientCtx (face : Face) (si : SubInfo) (ctxs : List Context) :
    List Context :=
  if ctxs.any (fun c => decide (c.faceId = face.id)) then
    ctxs.map (fun c =>
      if c.faceId = face.id then
        match c.subs with
        | some info =>
            if info.mode = SubMode.pull then { c with subs := some si } else c
        | none => { c with subs := some si }
      else c)
  else
    ctxs ++ [{ faceId := face.id, faceWhatami := face.whatami,
               subs := some si, lastValues := [] }]

/-- register_client_subscription (pubsub.rs line 237): store the SubInfo in
the face's context of the resource and push the resource onto the face's
remote_subs.  No primitive is emitted. -/
def registerClientSubscription (t : Tables) (face : Face) (resName : String)
    (si : SubInfo) : Tables :=
  { t with
    resources := t.resources.map (fun r =>
      if r.name = resName then
        { r with contexts := upsertClientCtx face si r.contexts }
      else r),
    faces := t.faces.map (fun f =>
      if f.id = face.id then { f with remoteSubs := f.remoteSubs ++ [resName] }
      else f) }

/-- Modelled from the spec: Resource::make_resource is get-or-create by the
full concatenated name; a fresh resource starts with empty tier-sets and no
contexts. -/
def makeResource (t : Tables) (resName : String) : Tables :=
  if (findRes t.resources resName).isSome then t
  else
    { t with
      resources := t.resources ++
        [{ name := resName, routerSubs := [], peerSubs := [], contexts := [],
           resMatches := [], route := [] }] }

/-- Modelled from the spec: wildcard intersection of two resource names is
provided by the out-of-scope resource-name service; it is modelled minimally
as exact equality plus a universal pattern that intersects every name. -/
def nameIntersects (a b : String) : Bool :=
  a == b || a == "/**" || b == "/**"

/-- Modelled from the spec: Resource::match_resource populates the match
lists: the named resource records every intersecting arena resource, and
each intersecting resource gains the name in return. -/
def matchResource (t : Tables) (resName : String) : Tables :=
  { t with
    resources := t.resources.map (fun r =>
      if r.name = resName then
        { r with resMatches := List.map (fun r2 => r2.name) (t.resources.filter (fun r2 => nameIntersects resName r2.name)) }
      else if nameIntersects resName r.name then
        { r with resMatches :=
            if resName ∈ r.resMatches then r.resMatches
            else r.resMatches ++ [resName] }
      else r) }

/-- First-wins keyed insertion used to build a DataRoute, embedding the
or_insert_with of the slow path of get_route. -/
def dedupeKeys : List RouteEntry → List Nat → List RouteEntry
  | [], _ => []
  | e :: es, seen =>
      if e.dstId ∈ seen then dedupeKeys es seen
      else e :: dedupeKeys es (e.dstId :: seen)

/-- Modelled from the spec: Tables::build_matches_direct_tables recomputes
the cached route of the named resource from the Push-mode subscribing
contexts of its matches. -/
def computeRouteFor (t : Tables) (r : Resource) : DataRoute :=
  dedupeKeys
    ((r.resMatches.filterMap (findRes t.resources)).flatMap (fun m =>
      m.contexts.filterMap (fun c =>
        match c.subs with
        | some si =>
            if si.mode = SubMode.push then
              some { dstId := c.faceId, dstWhatami := c.faceWhatami,
                     reskey := m.name }
            else none
        | none => none))) []

/-- The cache rebuild called at the end of each declare. -/
def buildMatchesDirectTables (t : Tables) (resName : String) : Tables :=
  { t with
    resources := t.resources.map (fun r =>
      if r.name = resName then { r with route := computeRouteFor t r } else r) }

/-- declare_router_subscription (pubsub.rs line 126). -/
def declareRouterSubscription (t : Tables) (face : Face) (rid : Nat)
    (suffix : String) (si : SubInfo) (router : Nat) : Tables × List Event :=
  match getMapping face rid with
  | none => (t, [])
  | some pfx =>
      let (t2, evs) := registerRouterSubscription
        (matchResource (makeResource t (pfx ++ suffix)) (pfx ++ suffix)) face
        (pfx ++ suffix) si router
      (buildMatchesDirectTables t2 (pfx ++ suffix), evs)

/-- declare_peer_subscription (pubsub.rs line 204): register the peer sub
with the original SubInfo; on a ROUTER-tier node additionally register a
router sub for the local pid with the mode forced to Push. -/
def declarePeerSubscription (t : Tables) (face : Face) (rid : Nat)
    (suffix : String) (si : SubInfo) (p : Nat) : Tables × List Event :=
  match getMapping face rid with
  | none => (t, [])
  | some pfx =>
      let (t2, evs1) := registerPeerSubscription
        (matchResource (makeResource t (pfx ++ suffix)) (pfx ++ suffix)) face
        (pfx ++ suffix) si p
      let (t3, evs2) :=
        if t2.whatami = Whatami.router then
          registerRouterSubscription t2 face (pfx ++ suffix)
            { si with mode := SubMode.push } t2.pid
        else (t2, [])
      (buildMatchesDirectTables t3 (pfx ++ suffix), evs1 ++ evs2)

/-- declare_client_subscription (pubsub.rs line 276): store the client
context, then depending on the local tier register a router sub or a peer
sub for the local pid with mode forced to Push, or propagate directly to the
other faces with the original SubInfo. -/
def declareClientSubscription (t : Tables) (face : Face) (rid : Nat)
    (suffix : String) (si : SubInfo) : Tables × List Event :=
  match getMapping face rid with
  | none => (t, [])
  | some pfx =>
      let t2 := registerClientSubscription
        (matchResource (makeResource t (pfx ++ suffix)) (pfx ++ suffix)) face
        (pfx ++ suffix) si
      let (t3, evs) :=
        match t2.whatami with
        | .router =>
            registerRouterSubscription t2 face (pfx ++ suffix)
              { si with mode := SubMode.push } t2.pid
        | .peer =>
            registerPeerSubscription t2 face (pfx ++ suffix)
              { si with mode := SubMode.push } t2.pid
        | _ => propagateSimpleSubscription t2 face (pfx ++ suffix) si
      (buildMatchesDirectTables t3 (pfx ++ suffix), evs)

/-- propagate_forget_simple_subscription (pubsub.rs line 325): every face
holding the resource in local_subs receives a forget_subscriber with no
routing context and has the resource removed from local_subs.  Note that the
source has no source-face parameter here. -/
def propagateForgetSimpleSubscription (t : Tables) (resName : String) :
    Tables × List Event :=
  ({ t with
      faces := t.faces.map (fun f =>
        if resName ∈ f.localSubs then
          { f with localSubs := f.localSubs.filter (fun n => decide (n ≠ resName)) }
        else f) },
   t.faces.filterMap (fun f =>
     if resName ∈ f.localSubs then
       some (Event.forgetSubscriber f.id (getBestKey resName "") none)
     else none))

/-- The tier-set removal of unregister_peer_subscription line 430. -/
def removePeerSub (t : Tables) (resName : String) (p : Nat) : Tables :=
  { t with resources := t.resources.map (dropPeer resName p) }

/-- The tier-set removal of unregister_router_subscription line 350. -/
def removeRouterSub (t : Tables) (resName : String) (p : Nat) : Tables :=
  { t with resources := t.resources.map (dropRouter resName p) }

/-- unregister_peer_subscription (pubsub.rs line 418): remove the pid from
the tier-set, walk the peers net with forgets, and drop the resource from
the index when the tier-set emptied.  No further cascade. -/
def unregisterPeerSubscription (t : Tables) (face : Face) (resName : String)
    (p : Nat) : Tables × List Event :=
  match getRes t resName with
  | none => (t, [])
  | some r =>
      if p ∈ r.peerSubs then
        if r.peerSubs.filter (fun x => decide (x ≠ p)) = [] then
          ({ removePeerSub t resName p with
              peerSubsIdx := rmStr resName t.peerSubsIdx },
           treeWalkForget (removePeerSub t resName p) t.peersNet p face.id
             resName)
        else
          (removePeerSub t resName p,
           treeWalkForget (removePeerSub t resName p) t.peersNet p face.id
             resName)
      else (t, [])

/-- unregister_router_subscription (pubsub.rs line 338): remove the pid from
the tier-set, walk the routers net with forgets; when the tier-set emptied,
drop the resource from the index and cascade into a peer unregistration for
the local pid and the simple forget propagation. -/
def unregisterRouterSubscription (t : Tables) (face : Face) (resName : String)
    (router : Nat) : Tables × List Event :=
  match getRes t resName with
  | none => (t, [])
  | some r =>
      if router ∈ r.routerSubs then
        if r.routerSubs.filter (fun x => decide (x ≠ router)) = [] then
          let t2 : Tables := { removeRouterSub t resName router with
            routerSubsIdx := rmStr resName t.routerSubsIdx }
          let evs1 := treeWalkForget (removeRouterSub t resName router)
            t.routersNet router face.id resName
          let (t3, evs2) := unregisterPeerSubscription t2 face resName t2.pid
          let (t4, evs3) := propagateForgetSimpleSubscription t3 resName
          (t4, evs1 ++ evs2 ++ evs3)
        else
          (removeRouterSub t resName router,
           treeWalkForget (removeRouterSub t resName router) t.routersNet
             router face.id resName)
      else (t, [])

/-- True when no context of the named resource holds a subscription. -/
def noCtxSubs (t : Tables) (resName : String) : Bool :=
  match getRes t resName with
  | some r => r.contexts.all (fun c => c.subs.isNone)
  | none => true

/-- The remote check of the source over the peer_subs index: some indexed
resource records a peer pid different from the local one. -/
def remotePeerInPeerIdx (t : Tables) : Bool :=
  t.peerSubsIdx.any (fun n =>
    match findRes t.resources n with
    | some r => r.peerSubs.any (fun p => decide (p ≠ t.pid))
    | none => false)

/-- The remote check of the source over the router_subs index.  Note that
the source reads the peer_subs set of each router-indexed resource here
(pubsub.rs lines 564 to 567), not its router_subs set. -/
def remotePeerInRouterIdx (t : Tables) : Bool :=
  t.routerSubsIdx.any (fun n =>
    match findRes t.resources n with
    | some r => r.peerSubs.any (fun p => decide (p ≠ t.pid))
    | none => false)

/-- Modelled from the spec: Resource::clean drops a resource from the arena
when all tier references are gone: both tier-sets empty, no context holding
a subscription, and no face holding it in local_subs or remote_subs. -/
def cleanRes (t : Tables) (resName : String) : Tables :=
  match findRes t.resources resName with
  | none => t
  | some r =>
      if r.routerSubs.isEmpty && r.peerSubs.isEmpty &&
         r.contexts.all (fun c => c.subs.isNone) &&
         t.faces.all (fun f =>
           !(decide (resName ∈ f.localSubs)) &&
           !(decide (resName ∈ f.remoteSubs))) then
        { t with resources :=
            t.resources.filter (fun rr => decide (rr.name ≠ resName)) }
      else t

/-- Line 517 of unregister_client_subscription: clear the subs field of the
undeclaring face's context of the resource. -/
def clearCtxSubs (t : Tables) (faceId : Nat) (resName : String) : Tables :=
  { t with
    resources := t.resources.map (fun r =>
      if r.name = resName then
        { r with contexts := r.contexts.map (fun c =>
            if c.faceId = faceId then { c with subs := none } else c) }
      else r) }

/-- Line 520 of unregister_client_subscription: prune the resource from the
undeclaring face's remote_subs. -/
def pruneRemoteSubs (t : Tables) (faceId : Nat) (resName : String) : Tables :=
  { t with
    faces := t.faces.map (fun f =>
      if f.id = faceId then
        { f with remoteSubs := f.remoteSubs.filter (fun n => decide (n ≠ resName)) }
      else f) }

/-- The tier-dependent cascade of unregister_client_subscription line 524. -/
def clientCascade (t : Tables) (face : Face) (resName : String) :
    Tables × List Event :=
  match t.whatami with
  | .router =>
      if noCtxSubs t resName && !(remotePeerInPeerIdx t) then
        unregisterRouterSubscription t face resName t.pid
      else (t, [])
  | .peer =>
      if noCtxSubs t resName && !(remotePeerInPeerIdx t) then
        unregisterPeerSubscription t face resName t.pid
      else (t, [])
  | _ =>
      if noCtxSubs t resName then
        propagateForgetSimpleSubscription t resName
      else (t, [])

/-- The client_subs collection of unregister_client_subscription line 552:
the ids of the faces whose context of the resource holds a subscription. -/
def resClientSubs (t : Tables) (resName : String) : List Nat :=
  match getRes t resName with
  | some r => r.contexts.filterMap (fun c =>
      if c.subs.isSome then some c.faceId else none)
  | none => []

/-- The final block of unregister_client_subscription line 552: when exactly
one client subscription remains and the two index checks see no remote
peer pid, emit a plain forget_subscriber to the remaining subscribing face
and prune its local_subs. -/
def lastClientForget (t : Tables) (resName : String) : Tables × List Event :=
  if (resClientSubs t resName).length = 1 && !(remotePeerInRouterIdx t) &&
     !(remotePeerInPeerIdx t) then
    match findFace t.faces ((resClientSubs t resName).headD 0) with
    | some f =>
        if resName ∈ f.localSubs then
          ({ t with
              faces := t.faces.map (fun ff =>
                if ff.id = f.id then
                  { ff with localSubs :=
                      ff.localSubs.filter (fun n => decide (n ≠ resName)) }
                else ff) },
           [Event.forgetSubscriber f.id (getBestKey resName "") none])
        else (t, [])
    | none => (t, [])
  else (t, [])

/-- unregister_client_subscription (pubsub.rs line 507): clear the context,
prune remote_subs, cascade by local tier, run the last-client forget block,
and end with resource cleanup. -/
def unregisterClientSubscription (t : Tables) (face : Face)
    (resName : String) : Tables × List Event :=
  let t2 := pruneRemoteSubs (clearCtxSubs t face.id resName) face.id resName
  let (t3, evs1) := clientCascade t2 face resName
  let (t4, evs2) := lastClientForget t3 resName
  (cleanRes t4 resName, evs1 ++ evs2)

/-- undeclare_router_subscription (pubsub.rs line 399). -/
def undeclareRouterSubscription (t : Tables) (face : Face) (rid : Nat)
    (suffix : String) (router : Nat) : Tables × List Event :=
  match getMapping face rid with
  | none => (t, [])
  | some pfx =>
      match getRes t (pfx ++ suffix) with
      | none => (t, [])
      | some _ =>
          let (t1, evs) := unregisterRouterSubscription t face (pfx ++ suffix)
            router
          (cleanRes t1 (pfx ++ suffix), evs)

/-- undeclare_peer_subscription (pubsub.rs line 476): unregister the peer
sub; on a ROUTER-tier node, when no context subscribes and no remote peer
remains in the peer index, cascade into a router unregistration for the
local pid. -/
def undeclarePeerSubscription (t : Tables) (face : Face) (rid : Nat)
    (suffix : String) (p : Nat) : Tables × List Event :=
  match getMapping face rid with
  | none => (t, [])
  | some pfx =>
      match getRes t (pfx ++ suffix) with
      | none => (t, [])
      | some _ =>
          let (t1, evs1) := unregisterPeerSubscription t face (pfx ++ suffix) p
          let (t2, evs2) :=
            if t1.whatami = Whatami.router && noCtxSubs t1 (pfx ++ suffix) &&
               !(remotePeerInPeerIdx t1) then
              unregisterRouterSubscription t1 face (pfx ++ suffix) t1.pid
            else (t1, [])
          (cleanRes t2 (pfx ++ suffix), evs1 ++ evs2)

/-- undeclare_client_subscription (pubsub.rs line 587). -/
def undeclareClientSubscription (t : Tables) (face : Face) (rid : Nat)
    (suffix : String) : Tables × List Event :=
  match getMapping face rid with
  | none => (t, [])
  | some pfx =>
      match getRes t (pfx ++ suffix) with
      | none => (t, [])
      | some _ => unregisterClientSubscription t face (pfx ++ suffix)

/-- One declare or undeclare operation of the public pubsub interface,
carrying the id of the face that delivered it and its wire arguments. -/
inductive Op where
  | declRouter (faceId rid : Nat) (suffix : String) (si : SubInfo) (router : Nat)
  | declPeer (faceId rid : Nat) (suffix : String) (si : SubInfo) (p : Nat)
  | declClient (faceId rid : Nat) (suffix : String) (si : SubInfo)
  | undeclRouter (faceId rid : Nat) (suffix : String) (router : Nat)
  | undeclPeer (faceId rid : Nat) (suffix : String) (p : Nat)
  | undeclClient (faceId rid : Nat) (suffix : String)
deriving DecidableEq

/-- The face that originated (delivered) the operation. -/
def Op.srcId : Op → Nat
  | .declRouter f _ _ _ _ => f
  | .declPeer f _ _ _ _ => f
  | .declClient f _ _ _ => f
  | .undeclRouter f _ _ _ => f
  | .undeclPeer f _ _ _ => f
  | .undeclClient f _ _ => f

/-- Dispatch an operation against the tables; the source face is resolved
by id as the session layer passes a live face handle. -/
def applyOp (op : Op) (t : Tables) : Tables × List Event :=
  match op with
  | .declRouter fid rid sfx si r =>
      match findFace t.faces fid with
      | some f => declareRouterSubscription t f rid sfx si r
      | none => (t, [])
  | .declPeer fid rid sfx si p =>
      match findFace t.faces fid with
      | some f => declarePeerSubscription t f rid sfx si p
      | none => (t, [])
  | .declClient fid rid sfx si =>
      match findFace t.faces fid with
      | some f => declareClientSubscription t f rid sfx si
      | none => (t, [])
  | .undeclRouter fid rid sfx r =>
      match findFace t.faces fid with
      | some f => undeclareRouterSubscription t f rid sfx r
      | none => (t, [])
  | .undeclPeer fid rid sfx p =>
      match findFace t.faces fid with
      | some f => undeclarePeerSubscription t f rid sfx p
      | none => (t, [])
  | .undeclClient fid rid sfx =>
      match findFace t.faces fid with
      | some f => undeclareClientSubscription t f rid sfx
      | none => (t, [])

/-- The tier-relevant projection of a resource: its name and both tier-sets. -/
def tierProj (r : Resource) : String × List Nat × List Nat :=
  (r.name, r.routerSubs, r.peerSubs)

/-- The claimed invariant for a single resource: membership of the tables
index is equivalent to a non-empty tier-set, for both tiers. -/
def InvRes (t : Tables) (r : Resource) : Prop :=
  (r.name ∈ t.routerSubsIdx ↔ r.routerSubs ≠ []) ∧
  (r.name ∈ t.peerSubsIdx ↔ r.peerSubs ≠ [])

/-- The inductive invariant: the per-resource equivalence, closure of both
indices under the arena, and uniqueness of resource names (the arena embeds
the Arc identity of resources by name). -/
def Inv (t : Tables) : Prop :=
  (∀ r ∈ t.resources, InvRes t r) ∧
  (∀ n ∈ t.routerSubsIdx, ∃ r ∈ t.resources, r.name = n) ∧
  (∀ n ∈ t.peerSubsIdx, ∃ r ∈ t.resources, r.name = n) ∧
  (t.resources.map Resource.name).Nodup

/-- HashMap insertion into a last_values buffer: replace the entry with the
same key or append a fresh one. -/
def insertLV (k : String) (v : Option DataInfo × Nat) :
    List (String × (Option DataInfo × Nat)) →
      List (String × (Option DataInfo × Nat))
  | [] => [(k, v)]
  | (k2, v2) :: rest =>
      if k2 = k then (k, v) :: rest else (k2, v2) :: insertLV k v rest

/-- HashMap lookup in a last_values buffer. -/
def lookupLV (k : String) :
    List (String × (Option DataInfo × Nat)) → Option (Option DataInfo × Nat)
  | [] => none
  | (k2, v2) :: rest => if k2 = k then some v2 else lookupLV k rest

/-- The per-context buffering step of get_route: a Pull-mode subscribing
context has the full name and sample inserted into last_values; any other
context is left alone. -/
def pullCtxUpd (fullname : String) (v : Option DataInfo × Nat)
    (c : Context) : Context :=
  match c.subs with
  | some si =>
      if si.mode = SubMode.pull then
        { c with lastValues := insertLV fullname v c.lastValues }
      else c
  | none => c

/-- The pull-buffering pass of the fast path of get_route: every Pull-mode
context of every resource listed in the publication resource's match list
has the sample inserted under the full name. -/
def bufferPullMatches (t : Tables) (mnames : List String) (fullname : String)
    (v : Option DataInfo × Nat) : Tables :=
  { t with
    resources := t.resources.map (fun r =>
      if r.name ∈ mnames then
        { r with contexts := r.contexts.map (pullCtxUpd fullname v) }
      else r) }

/-- The pull-buffering pass of the slow path of get_route: every Pull-mode
context of every resource whose name intersects the published name has the
sample inserted. -/
def bufferPullIntersects (t : Tables) (fullname : String)
    (v : Option DataInfo × Nat) : Tables :=
  { t with
    resources := t.resources.map (fun r =>
      if nameIntersects fullname r.name then
        { r with contexts := r.contexts.map (pullCtxUpd fullname v) }
      else r) }

/-- The route candidates of the slow path of get_route, one per Push-mode
subscribing context of each intersecting resource, in iteration order. -/
def slowPathCands (t : Tables) (pfx suffix : String) : List RouteEntry :=
  (t.resources.filter (fun r =>
      nameIntersects (pfx ++ suffix) r.name)).flatMap
    (fun m => m.contexts.filterMap (fun c =>
      match c.subs with
      | some si =>
          if si.mode = SubMode.push then
            some { dstId := c.faceId, dstWhatami := c.faceWhatami,
                   reskey := getBestKey pfx suffix }
          else none
      | none => none))

/-- get_route (pubsub.rs line 696).  Fast path: the exact resource exists;
buffer the sample into every Pull-mode context of every match and return the
cached route.  Slow path: buffer into Pull-mode contexts of the name-derived
matches and build a fresh first-wins map from the Push-mode contexts. -/
def getRoute (t : Tables) (face : Face) (rid : Nat) (suffix : String)
    (info : Option DataInfo) (payload : Nat) : Tables × Option DataRoute :=
  match getMapping face rid with
  | none => (t, none)
  | some pfx =>
      match getRes t (pfx ++ suffix) with
      | some res =>
          (bufferPullMatches t res.resMatches (pfx ++ suffix) (info, payload),
           some res.route)
      | none =>
          (bufferPullIntersects t (pfx ++ suffix) (info, payload),
           some (dedupeKeys (slowPathCands t pfx suffix) []))

/-- The emission loop of route_data: one data call per route entry admitted
by the propagate_data predicate, always with Reliable reliability. -/
def emitRoute (w : Whatami) (face : Face) (cc : CongestionControl)
    (payload : Nat) (di : Option DataInfo) (route : DataRoute) : List Event :=
  route.filterMap (fun e =>
    if propagateData w face.id face.whatami e.dstId e.dstWhatami then
      some (Event.dataMsg e.dstId e.reskey payload Reliability.reliable cc
        di none)
    else none)

/-- route_data (pubsub.rs line 762): obtain the route (with its pull-buffer
side effect), then apply the HLC timestamp gate when an HLC is configured
(dropping the sample on error), and finally emit one data call per route
entry admitted by propagate_data. -/
def routeData (t : Tables) (face : Face) (rid : Nat) (suffix : String)
    (cc : CongestionControl) (info : Option DataInfo) (payload : Nat) :
    Tables × List Event :=
  match getRoute t face rid suffix info payload with
  | (t1, none) => (t1, [])
  | (t1, some route) =>
      match t1.hlc with
      | some h =>
          match treatTimestamp h info with
          | Except.ok di => (t1, emitRoute t1.whatami face cc payload di route)
          | Except.error _ => (t1, [])
      | none => (t1, emitRoute t1.whatami face cc payload info route)

/-- The state mutation of pull_data on success: clear the last_values of the
pulling face's context of the named resource; every other context and every
other resource is left untouched. -/
def clearPullBuffer (t : Tables) (resName : String) (fid : Nat) : Tables :=
  { t with
    resources := t.resources.map (fun r =>
      if r.name = resName then
        { r with contexts := r.contexts.map (fun c =>
            if c.faceId = fid then { c with lastValues := [] } else c) }
      else r) }

/-- pull_data (pubsub.rs line 836): locate the resource and the pulling
face's context; when it holds a subscription, emit one data call per entry
of last_values (with the stored info and payload, the subscription's
reliability and Drop congestion control) and clear the buffer.  All failure
paths only log. -/
def pullData (t : Tables) (face : Face) (rid : Nat) (suffix : String) :
    Tables × List Event :=
  match getMapping face rid with
  | none => (t, [])
  | some pfx =>
      match getRes t (pfx ++ suffix) with
      | none => (t, [])
      | some res =>
          match res.contexts.find? (fun c => decide (c.faceId = face.id)) with
          | none => (t, [])
          | some ctx =>
              match ctx.subs with
              | none => (t, [])
              | some si =>
                  (clearPullBuffer t (pfx ++ suffix) face.id,
                   ctx.lastValues.map (fun nv =>
                     Event.dataMsg face.id (getBestKey t.rootName nv.1) nv.2.2
                       si.reliability CongestionControl.drop nv.2.1 none))

/-- A minimal ROUTER-tier tables with one client face, used as witness
state. -/
def c2wTables : Tables :=
  { faces := [{ id := 1, pid := 11, whatami := Whatami.client,
                localSubs := [], remoteSubs := [], mappings := [] }],
    resources := [], routerSubsIdx := [], peerSubsIdx := [], pid := 0,
    whatami := Whatami.router, routersNet := { nodes := [], childs := [] },
    peersNet := { nodes := [], childs := [] }, hlc := none, rootName := "" }

/-- A Pull-mode SubInfo used in concrete scenarios. -/
def pullSub : SubInfo :=
  { reliability := Reliability.reliable, mode := SubMode.pull, period := none }

/-- A Push-mode SubInfo used in concrete scenarios. -/
def pushSub : SubInfo :=
  { reliability := Reliability.reliable, mode := SubMode.push, period := none }

/-- A client declaration of a Pull subscription on the resource "/a". -/
def c2wOp : Op := Op.declClient 1 0 "/a" pullSub

/-- The resource produced by applying c2wOp to c2wTables. -/
def c2wRes : Resource :=
  { name := "/a", routerSubs := [0], peerSubs := [0],
    contexts := [{ faceId := 1, faceWhatami := Whatami.client, subs := some pullSub, lastValues := [] }],
    resMatches := ["/a"], route := [] }

/-- The amended non-reflection property: a subscriber primitive, or a
forget_subscriber primitive carrying a tree routing context, never targets
the given source face; a plain forget_subscriber is unconstrained. -/
def NotReflected (srcId : Nat) : Event → Prop
  | Event.subscriber d _ _ _ => d ≠ srcId
  | Event.forgetSubscriber d _ (some _) => d ≠ srcId
  | _ => True

/-- A ROUTER-tier tables with two client faces and one peer face, all fresh. -/
def c3Tables : Tables :=
  { faces := [
      { id := 1, pid := 11, whatami := Whatami.client, localSubs := [], remoteSubs := [], mappings := [] },
      { id := 2, pid := 12, whatami := Whatami.client, localSubs := [], remoteSubs := [], mappings := [] },
      { id := 3, pid := 9, whatami := Whatami.peer, localSubs := [], remoteSubs := [], mappings := [] }],
    resources := [], routerSubsIdx := [], peerSubsIdx := [], pid := 0,
    whatami := Whatami.router, routersNet := { nodes := [], childs := [] },
    peersNet := { nodes := [], childs := [] }, hlc := none, rootName := "" }

/-- The state after both clients declare "/a", the peer declares a peer sub,
client 1 undeclares, and the peer undeclares: only client 2's subscription
remains, while client 2 still holds "/a" in local_subs. -/
def c3State : Tables :=
  (applyOp (Op.undeclPeer 3 0 "/a" 9)
    (applyOp (Op.undeclClient 1 0 "/a")
      (applyOp (Op.declPeer 3 0 "/a" pushSub 9)
        (applyOp (Op.declClient 2 0 "/a" pushSub)
          (applyOp (Op.declClient 1 0 "/a" pushSub) c3Tables).1).1).1).1).1

/-- The first client face of the concrete scenarios, as a face value. -/
def c4wFace : Face :=
  { id := 1, pid := 11, whatami := Whatami.client, localSubs := [],
    remoteSubs := [], mappings := [] }

/-- A ROUTER-tier tables where "/a" already carries router pid 7 and peer
pid 3, with a router face and a fresh client face. -/
def c5Tables : Tables :=
  { faces := [
      { id := 5, pid := 50, whatami := Whatami.router, localSubs := [], remoteSubs := [], mappings := [] },
      { id := 6, pid := 60, whatami := Whatami.client, localSubs := [], remoteSubs := [], mappings := [] }],
    resources := [{ name := "/a", routerSubs := [7], peerSubs := [3], contexts := [], resMatches := ["/a"], route := [] }],
    routerSubsIdx := ["/a"], peerSubsIdx := ["/a"], pid := 0,
    whatami := Whatami.router, routersNet := { nodes := [], childs := [] },
    peersNet := { nodes := [], childs := [] }, hlc := none, rootName := "" }

/-- The router face of c5Tables as a value. -/
def c5Face : Face :=
  { id := 5, pid := 50, whatami := Whatami.router, localSubs := [],
    remoteSubs := [], mappings := [] }

/-- The resource of c5Tables. -/
def c5Res : Resource :=
  { name := "/a", routerSubs := [7], peerSubs := [3], contexts := [],
    resMatches := ["/a"], route := [] }

/-- The pulling client face of the C6 scenario. -/
def c6Face : Face :=
  { id := 1, pid := 21, whatami := Whatami.client, localSubs := [],
    remoteSubs := [], mappings := [] }

/-- A sample DataInfo carrying only a timestamp. -/
def c6Info : DataInfo := { timestamp := some 3 }

/-- The pulling face's context holding two buffered samples. -/
def c6Ctx : Context :=
  { faceId := 1, faceWhatami := Whatami.client, subs := some pullSub,
    lastValues := [("/q/x", (none, 5)), ("/q/y", (some c6Info, 7))] }

/-- The pulled resource of the C6 scenario. -/
def c6Res : Resource :=
  { name := "/q", routerSubs := [], peerSubs := [], contexts := [c6Ctx],
    resMatches := ["/q"], route := [] }

/-- Tables holding the C6 resource and face. -/
def c6Tables : Tables :=
  { faces := [c6Face], resources := [c6Res], routerSubsIdx := [],
    peerSubsIdx := [], pid := 0, whatami := Whatami.router,
    routersNet := { nodes := [], childs := [] },
    peersNet := { nodes := [], childs := [] }, hlc := none, rootName := "" }

/-- A Pull-mode context owned by face 1. -/
def c7PullCtx : Context :=
  { faceId := 1, faceWhatami := Whatami.client, subs := some pullSub,
    lastValues := [] }

/-- A Push-mode context owned by face 2. -/
def c7PushCtx : Context :=
  { faceId := 2, faceWhatami := Whatami.client, subs := some pushSub,
    lastValues := [] }

/-- The universal-pattern resource of the slow-path scenario. -/
def c7Res : Resource :=
  { name := "/**", routerSubs := [], peerSubs := [],
    contexts := [c7PullCtx, c7PushCtx], resMatches := ["/**"], route := [] }

/-- The tables of the slow-path scenario: no exact resource for "/q", but a
universal-pattern resource with one Pull-mode and one Push-mode context. -/
def c7Tables : Tables :=
  { faces := [c6Face], resources := [c7Res], routerSubsIdx := [],
    peerSubsIdx := [], pid := 0, whatami := Whatami.router,
    routersNet := { nodes := [], childs := [] },
    peersNet := { nodes := [], childs := [] }, hlc := none, rootName := "" }

/-- An HLC accepting only timestamps below 50, stamping 10 when absent. -/
def c9Hlc : HLC := { accepts := fun ts => decide (ts < 50), fresh := 10 }

/-- A DataInfo whose timestamp 100 lies outside the acceptance window. -/
def c9Info : DataInfo := { timestamp := some 100 }

/-- The C7 slow-path tables with the HLC installed. -/
def c9Tables : Tables := { c7Tables with hlc := some c9Hlc }

/-- The publishing client face of the C9 and C10 scenarios. -/
def c10Face : Face :=
  { id := 5, pid := 55, whatami := Whatami.client, localSubs := [],
    remoteSubs := [], mappings := [] }

/-- The remaining subscribing client face of the C8 scenario, already told
to subscribe (the resource sits in its local_subs). -/
def c8Face2 : Face :=
  { id := 2, pid := 12, whatami := Whatami.client, localSubs := ["/z"],
    remoteSubs := ["/z"], mappings := [] }

/-- The undeclaring client face of the C8 scenario. -/
def c8Face3 : Face :=
  { id := 3, pid := 13, whatami := Whatami.client, localSubs := [],
    remoteSubs := ["/z"], mappings := [] }

/-- The C8 resource: remote router pid 1 subscribes (router_subs), while
peer_subs records only the local pid 0, as a remote router declaration
leaves it; both clients hold contexts. -/
def c8Res : Resource :=
  { name := "/z", routerSubs := [1], peerSubs := [0],
    contexts := [
      { faceId := 2, faceWhatami := Whatami.client, subs := some pushSub, lastValues := [] },
      { faceId := 3, faceWhatami := Whatami.client, subs := some pushSub, lastValues := [] }],
    resMatches := ["/z"], route := [] }

/-- The C8 tables: a ROUTER-tier node with the C8 resource indexed in both
tiers. -/
def c8Tables : Tables :=
  { faces := [c8Face2, c8Face3], resources := [c8Res],
    routerSubsIdx := ["/z"], peerSubsIdx := ["/z"], pid := 0,
    whatami := Whatami.router, routersNet := { nodes := [], childs := [] },
    peersNet := { nodes := [], childs := [] }, hlc := none, rootName := "" }

theorem findRes_some {l : List Resource} {n : String} {r : Resource}
    (h : findRes l n = some r) : r ∈ l ∧ r.name = n := by
  induction l with
  | nil => simp [findRes] at h
  | cons a tl ih =>
      by_cases ha : a.name = n
      · rw [findRes, if_pos ha] at h
        injection h with h
        subst h
        exact ⟨List.mem_cons_self _ _, ha⟩
      · rw [findRes, if_neg ha] at h
        obtain ⟨hm, hn⟩ := ih h
        exact ⟨List.mem_cons_of_mem a hm, hn⟩

theorem findRes_isSome_iff {l : List Resource} {n : String} :
    (findRes l n).isSome ↔ ∃ r ∈ l, r.name = n := by
  induction l with
  | nil => simp [findRes]
  | cons a tl ih =>
      by_cases ha : a.name = n
      · simp [findRes, ha]
      · rw [findRes, if_neg ha]
        rw [ih]
        constructor
        · rintro ⟨r, hr, hn⟩
          exact ⟨r, List.mem_cons_of_mem a hr, hn⟩
        · rintro ⟨r, hr, hn⟩
          rcases List.mem_cons.1 hr with rfl | hr2
          · exact absurd hn ha
          · exact ⟨r, hr2, hn⟩

theorem findRes_unique {l : List Resource} {n : String} {r r0 : Resource}
    (hnd : (l.map Resource.name).Nodup) (h : findRes l n = some r)
    (h0 : r0 ∈ l) (hn : r0.name = n) : r0 = r := by
  induction l with
  | nil => simp at h0
  | cons a tl ih =>
      rw [List.map_cons, List.nodup_cons] at hnd
      by_cases ha : a.name = n
      · rw [findRes, if_pos ha] at h
        injection h with h
        subst h
        rcases List.mem_cons.1 h0 with rfl | h2
        · rfl
        · exfalso
          apply hnd.1
          have he : r0.name = a.name := by rw [hn, ha]
          exact he ▸ List.mem_map.2 ⟨r0, h2, rfl⟩
      · rw [findRes, if_neg ha] at h
        rcases List.mem_cons.1 h0 with rfl | h2
        · exact absurd hn ha
        · exact ih hnd.2 h h2

theorem mem_insStr {m n : String} {idx : List String} :
    m ∈ insStr n idx ↔ (m ∈ idx ∨ m = n) := by
  by_cases h : n ∈ idx
  · rw [insStr, if_pos h]
    constructor
    · exact fun hm => Or.inl hm
    · rintro (hm | rfl)
      · exact hm
      · exact h
  · rw [insStr, if_neg h]
    simp

theorem mem_rmStr {m n : String} {idx : List String} :
    m ∈ rmStr n idx ↔ (m ∈ idx ∧ m ≠ n) := by
  simp [rmStr, List.mem_filter]

theorem map_tierProj_pointwise {l : List Resource} {g : Resource → Resource}
    (h : ∀ r, tierProj (g r) = tierProj r) :
    (l.map g).map tierProj = l.map tierProj := by
  induction l with
  | nil => rfl
  | cons a tl ih => simp [h a, ih]

theorem name_eq_of_tierProj {r r0 : Resource} (h : tierProj r = tierProj r0) :
    r.name = r0.name := congrArg Prod.fst h

theorem routerSubs_eq_of_tierProj {r r0 : Resource}
    (h : tierProj r = tierProj r0) : r.routerSubs = r0.routerSubs :=
  congrArg (fun x => x.2.1) h

theorem peerSubs_eq_of_tierProj {r r0 : Resource}
    (h : tierProj r = tierProj r0) : r.peerSubs = r0.peerSubs :=
  congrArg (fun x => x.2.2) h

/-- Invariance transfers along any state change that leaves both indices and
the tier projection of the arena untouched (face, context, match and route
updates). -/
theorem inv_transfer (t t2 : Tables)
    (h1 : t2.routerSubsIdx = t.routerSubsIdx)
    (h2 : t2.peerSubsIdx = t.peerSubsIdx)
    (h3 : t2.resources.map tierProj = t.resources.map tierProj)
    (hinv : Inv t) : Inv t2 := by
  obtain ⟨i1, i2, i3, i4⟩ := hinv
  have hnames : t2.resources.map Resource.name = t.resources.map Resource.name := by
    have hc := congrArg (List.map Prod.fst) h3
    simp only [List.map_map] at hc
    have hfn : (Prod.fst ∘ tierProj) = Resource.name := funext (fun r => rfl)
    rwa [hfn] at hc
  refine ⟨?_, ?_, ?_, ?_⟩
  · intro r hr
    have hp : tierProj r ∈ t.resources.map tierProj := by
      rw [← h3]
      exact List.mem_map.2 ⟨r, hr, rfl⟩
    obtain ⟨r0, hr0, hpe⟩ := List.mem_map.1 hp
    obtain ⟨j1, j2⟩ := i1 r0 hr0
    refine ⟨?_, ?_⟩
    · rw [h1, name_eq_of_tierProj hpe.symm, routerSubs_eq_of_tierProj hpe.symm]
      exact j1
    · rw [h2, name_eq_of_tierProj hpe.symm, peerSubs_eq_of_tierProj hpe.symm]
      exact j2
  · intro n hn
    rw [h1] at hn
    obtain ⟨r0, hr0, hname⟩ := i2 n hn
    have : r0.name ∈ t2.resources.map Resource.name := by
      rw [hnames]
      exact List.mem_map.2 ⟨r0, hr0, rfl⟩
    obtain ⟨r2, hr2, hn2⟩ := List.mem_map.1 this
    exact ⟨r2, hr2, hn2.trans hname⟩
  · intro n hn
    rw [h2] at hn
    obtain ⟨r0, hr0, hname⟩ := i3 n hn
    have : r0.name ∈ t2.resources.map Resource.name := by
      rw [hnames]
      exact List.mem_map.2 ⟨r0, hr0, rfl⟩
    obtain ⟨r2, hr2, hn2⟩ := List.mem_map.1 this
    exact ⟨r2, hr2, hn2.trans hname⟩
  · rw [hnames]
    exact i4

theorem bumpRouter_name (n : String) (p : Nat) (r : Resource) :
    (bumpRouter n p r).name = r.name := by
  unfold bumpRouter; split <;> rfl

theorem bumpRouter_peerSubs (n : String) (p : Nat) (r : Resource) :
    (bumpRouter n p r).peerSubs = r.peerSubs := by
  unfold bumpRouter; split <;> rfl

theorem bumpPeer_name (n : String) (p : Nat) (r : Resource) :
    (bumpPeer n p r).name = r.name := by
  unfold bumpPeer; split <;> rfl

theorem bumpPeer_routerSubs (n : String) (p : Nat) (r : Resource) :
    (bumpPeer n p r).routerSubs = r.routerSubs := by
  unfold bumpPeer; split <;> rfl

theorem dropRouter_name (n : String) (p : Nat) (r : Resource) :
    (dropRouter n p r).name = r.name := by
  unfold dropRouter; split <;> rfl

theorem dropRouter_peerSubs (n : String) (p : Nat) (r : Resource) :
    (dropRouter n p r).peerSubs = r.peerSubs := by
  unfold dropRouter; split <;> rfl

theorem dropPeer_name (n : String) (p : Nat) (r : Resource) :
    (dropPeer n p r).name = r.name := by
  unfold dropPeer; split <;> rfl

theorem dropPeer_routerSubs (n : String) (p : Nat) (r : Resource) :
    (dropPeer n p r).routerSubs = r.routerSubs := by
  unfold dropPeer; split <;> rfl

theorem map_name_preserving {l : List Resource} {g : Resource → Resource}
    (h : ∀ r, (g r).name = r.name) :
    (l.map g).map Resource.name = l.map Resource.name := by
  induction l with
  | nil => rfl
  | cons a tl ih => simp [h a, ih]

theorem inv_addRouterSub {t : Tables} {n : String} {p : Nat}
    (hinv : Inv t) (hex : ∃ r0 ∈ t.resources, r0.name = n) :
    Inv (addRouterSub t n p) := by
  obtain ⟨i1, i2, i3, i4⟩ := hinv
  have hres : (addRouterSub t n p).resources =
      t.resources.map (bumpRouter n p) := rfl
  have hri : (addRouterSub t n p).routerSubsIdx =
      insStr n t.routerSubsIdx := rfl
  have hpi : (addRouterSub t n p).peerSubsIdx = t.peerSubsIdx := rfl
  refine ⟨?_, ?_, ?_, ?_⟩
  · intro r2 hr2
    rw [hres] at hr2
    obtain ⟨r, hr, rfl⟩ := List.mem_map.1 hr2
    obtain ⟨j1, j2⟩ := i1 r hr
    unfold InvRes
    rw [hri, hpi, bumpRouter_name, bumpRouter_peerSubs]
    by_cases hname : r.name = n
    · have hb : (bumpRouter n p r).routerSubs = r.routerSubs ++ [p] := by
        rw [bumpRouter, if_pos hname]
      rw [hb]
      constructor
      · rw [hname]
        exact iff_of_true (mem_insStr.2 (Or.inr rfl)) (by simp)
      · exact j2
    · have hb : (bumpRouter n p r).routerSubs = r.routerSubs := by
        rw [bumpRouter, if_neg hname]
      rw [hb]
      refine ⟨⟨?_, ?_⟩, j2⟩
      · intro hm
        rcases mem_insStr.1 hm with hm2 | he
        · exact j1.1 hm2
        · exact absurd he hname
      · intro hne
        exact mem_insStr.2 (Or.inl (j1.2 hne))
  · intro m hm
    rw [hri] at hm
    rw [hres]
    rcases mem_insStr.1 hm with hm2 | he
    · obtain ⟨r0, hr0, hname⟩ := i2 m hm2
      exact ⟨bumpRouter n p r0, List.mem_map.2 ⟨r0, hr0, rfl⟩,
        (bumpRouter_name n p r0).trans hname⟩
    · obtain ⟨r0, hr0, hname⟩ := hex
      exact ⟨bumpRouter n p r0, List.mem_map.2 ⟨r0, hr0, rfl⟩,
        (bumpRouter_name n p r0).trans (hname.trans he.symm)⟩
  · intro m hm
    rw [hpi] at hm
    rw [hres]
    obtain ⟨r0, hr0, hname⟩ := i3 m hm
    exact ⟨bumpRouter n p r0, List.mem_map.2 ⟨r0, hr0, rfl⟩,
      (bumpRouter_name n p r0).trans hname⟩
  · rw [hres, map_name_preserving (bumpRouter_name n p)]
    exact i4

theorem inv_addPeerSub {t : Tables} {n : String} {p : Nat}
    (hinv : Inv t) (hex : ∃ r0 ∈ t.resources, r0.name = n) :
    Inv (addPeerSub t n p) := by
  obtain ⟨i1, i2, i3, i4⟩ := hinv
  have hres : (addPeerSub t n p).resources =
      t.resources.map (bumpPeer n p) := rfl
  have hri : (addPeerSub t n p).routerSubsIdx = t.routerSubsIdx := rfl
  have hpi : (addPeerSub t n p).peerSubsIdx = insStr n t.peerSubsIdx := rfl
  refine ⟨?_, ?_, ?_, ?_⟩
  · intro r2 hr2
    rw [hres] at hr2
    obtain ⟨r, hr, rfl⟩ := List.mem_map.1 hr2
    obtain ⟨j1, j2⟩ := i1 r hr
    unfold InvRes
    rw [hri, hpi, bumpPeer_name, bumpPeer_routerSubs]
    by_cases hname : r.name = n
    · have hb : (bumpPeer n p r).peerSubs = r.peerSubs ++ [p] := by
        rw [bumpPeer, if_pos hname]
      rw [hb]
      constructor
      · exact j1
      · rw [hname]
        exact iff_of_true (mem_insStr.2 (Or.inr rfl)) (by simp)
    · have hb : (bumpPeer n p r).peerSubs = r.peerSubs := by
        rw [bumpPeer, if_neg hname]
      rw [hb]
      refine ⟨j1, ⟨?_, ?_⟩⟩
      · intro hm
        rcases mem_insStr.1 hm with hm2 | he
        · exact j2.1 hm2
        · exact absurd he hname
      · intro hne
        exact mem_insStr.2 (Or.inl (j2.2 hne))
  · intro m hm
    rw [hri] at hm
    rw [hres]
    obtain ⟨r0, hr0, hname⟩ := i2 m hm
    exact ⟨bumpPeer n p r0, List.mem_map.2 ⟨r0, hr0, rfl⟩,
      (bumpPeer_name n p r0).trans hname⟩
  · intro m hm
    rw [hpi] at hm
    rw [hres]
    rcases mem_insStr.1 hm with hm2 | he
    · obtain ⟨r0, hr0, hname⟩ := i3 m hm2
      exact ⟨bumpPeer n p r0, List.mem_map.2 ⟨r0, hr0, rfl⟩,
        (bumpPeer_name n p r0).trans hname⟩
    · obtain ⟨r0, hr0, hname⟩ := hex
      exact ⟨bumpPeer n p r0, List.mem_map.2 ⟨r0, hr0, rfl⟩,
        (bumpPeer_name n p r0).trans (hname.trans he.symm)⟩
  · rw [hres, map_name_preserving (bumpPeer_name n p)]
    exact i4

theorem inv_removePeerKeep {t : Tables} {n : String} {p : Nat} {r : Resource}
    (hinv : Inv t) (hfind : findRes t.resources n = some r)
    (hmem : p ∈ r.peerSubs)
    (hne : r.peerSubs.filter (fun x => decide (x ≠ p)) ≠ []) :
    Inv (removePeerSub t n p) := by
  obtain ⟨i1, i2, i3, i4⟩ := hinv
  obtain ⟨hrmem, hrname⟩ := findRes_some hfind
  have hres : (removePeerSub t n p).resources =
      t.resources.map (dropPeer n p) := rfl
  refine ⟨?_, ?_, ?_, ?_⟩
  · intro r2 hr2
    rw [hres] at hr2
    obtain ⟨r0, hr0, rfl⟩ := List.mem_map.1 hr2
    by_cases hname : r0.name = n
    · have hr0r : r0 = r := findRes_unique i4 hfind hr0 hname
      subst hr0r
      have hb : (dropPeer n p r0).peerSubs =
          r0.peerSubs.filter (fun x => decide (x ≠ p)) := by
        rw [dropPeer, if_pos hname]
      unfold InvRes
      rw [dropPeer_name, dropPeer_routerSubs, hb]
      obtain ⟨j1, j2⟩ := i1 r0 hr0
      exact ⟨j1, iff_of_true (j2.2 (List.ne_nil_of_mem hmem)) hne⟩
    · have hb : dropPeer n p r0 = r0 := by rw [dropPeer, if_neg hname]
      rw [hb]
      exact i1 r0 hr0
  · intro m hm
    rw [hres]
    obtain ⟨r0, hr0, hname⟩ := i2 m hm
    exact ⟨dropPeer n p r0, List.mem_map.2 ⟨r0, hr0, rfl⟩,
      (dropPeer_name n p r0).trans hname⟩
  · intro m hm
    rw [hres]
    obtain ⟨r0, hr0, hname⟩ := i3 m hm
    exact ⟨dropPeer n p r0, List.mem_map.2 ⟨r0, hr0, rfl⟩,
      (dropPeer_name n p r0).trans hname⟩
  · rw [hres, map_name_preserving (dropPeer_name n p)]
    exact i4

theorem inv_removePeerEmpty {t : Tables} {n : String} {p : Nat} {r : Resource}
    (hinv : Inv t) (hfind : findRes t.resources n = some r)
    (hempty : r.peerSubs.filter (fun x => decide (x ≠ p)) = []) :
    Inv { removePeerSub t n p with peerSubsIdx := rmStr n t.peerSubsIdx } := by
  obtain ⟨i1, i2, i3, i4⟩ := hinv
  have hres :
      ({ removePeerSub t n p with
          peerSubsIdx := rmStr n t.peerSubsIdx } : Tables).resources =
        t.resources.map (dropPeer n p) := rfl
  refine ⟨?_, ?_, ?_, ?_⟩
  · intro r2 hr2
    rw [hres] at hr2
    obtain ⟨r0, hr0, rfl⟩ := List.mem_map.1 hr2
    obtain ⟨j1, j2⟩ := i1 r0 hr0
    unfold InvRes
    rw [dropPeer_name, dropPeer_routerSubs]
    by_cases hname : r0.name = n
    · have hr0r : r0 = r := findRes_unique i4 hfind hr0 hname
      have hb : (dropPeer n p r0).peerSubs =
          r0.peerSubs.filter (fun x => decide (x ≠ p)) := by
        rw [dropPeer, if_pos hname]
      rw [hb]
      refine ⟨j1, ?_⟩
      rw [hname, hr0r]
      exact iff_of_false (fun hmem2 => (mem_rmStr.1 hmem2).2 rfl)
        (fun hne => hne hempty)
    · have hb : (dropPeer n p r0).peerSubs = r0.peerSubs := by
        rw [dropPeer, if_neg hname]
      rw [hb]
      refine ⟨j1, ⟨?_, ?_⟩⟩
      · intro hm
        exact j2.1 (mem_rmStr.1 hm).1
      · intro hne
        exact mem_rmStr.2 ⟨j2.2 hne, hname⟩
  · intro m hm
    rw [hres]
    obtain ⟨r0, hr0, hname⟩ := i2 m hm
    exact ⟨dropPeer n p r0, List.mem_map.2 ⟨r0, hr0, rfl⟩,
      (dropPeer_name n p r0).trans hname⟩
  · intro m hm
    rw [hres]
    obtain ⟨r0, hr0, hname⟩ := i3 m (mem_rmStr.1 hm).1
    exact ⟨dropPeer n p r0, List.mem_map.2 ⟨r0, hr0, rfl⟩,
      (dropPeer_name n p r0).trans hname⟩
  · rw [hres, map_name_preserving (dropPeer_name n p)]
    exact i4

theorem inv_removeRouterKeep {t : Tables} {n : String} {p : Nat} {r : Resource}
    (hinv : Inv t) (hfind : findRes t.resources n = some r)
    (hmem : p ∈ r.routerSubs)
    (hne : r.routerSubs.filter (fun x => decide (x ≠ p)) ≠ []) :
    Inv (removeRouterSub t n p) := by
  obtain ⟨i1, i2, i3, i4⟩ := hinv
  have hres : (removeRouterSub t n p).resources =
      t.resources.map (dropRouter n p) := rfl
  refine ⟨?_, ?_, ?_, ?_⟩
  · intro r2 hr2
    rw [hres] at hr2
    obtain ⟨r0, hr0, rfl⟩ := List.mem_map.1 hr2
    by_cases hname : r0.name = n
    · have hr0r : r0 = r := findRes_unique i4 hfind hr0 hname
      subst hr0r
      have hb : (dropRouter n p r0).routerSubs =
          r0.routerSubs.filter (fun x => decide (x ≠ p)) := by
        rw [dropRouter, if_pos hname]
      unfold InvRes
      rw [dropRouter_name, dropRouter_peerSubs, hb]
      obtain ⟨j1, j2⟩ := i1 r0 hr0
      exact ⟨iff_of_true (j1.2 (List.ne_nil_of_mem hmem)) hne, j2⟩
    · have hb : dropRouter n p r0 = r0 := by rw [dropRouter, if_neg hname]
      rw [hb]
      exact i1 r0 hr0
  · intro m hm
    rw [hres]
    obtain ⟨r0, hr0, hname⟩ := i2 m hm
    exact ⟨dropRouter n p r0, List.mem_map.2 ⟨r0, hr0, rfl⟩,
      (dropRouter_name n p r0).trans hname⟩
  · intro m hm
    rw [hres]
    obtain ⟨r0, hr0, hname⟩ := i3 m hm
    exact ⟨dropRouter n p r0, List.mem_map.2 ⟨r0, hr0, rfl⟩,
      (dropRouter_name n p r0).trans hname⟩
  · rw [hres, map_name_preserving (dropRouter_name n p)]
    exact i4

theorem inv_removeRouterEmpty {t : Tables} {n : String} {p : Nat} {r : Resource}
    (hinv : Inv t) (hfind : findRes t.resources n = some r)
    (hempty : r.routerSubs.filter (fun x => decide (x ≠ p)) = []) :
    Inv { removeRouterSub t n p with
          routerSubsIdx := rmStr n t.routerSubsIdx } := by
  obtain ⟨i1, i2, i3, i4⟩ := hinv
  have hres :
      ({ removeRouterSub t n p with
          routerSubsIdx := rmStr n t.routerSubsIdx } : Tables).resources =
        t.resources.map (dropRouter n p) := rfl
  refine ⟨?_, ?_, ?_, ?_⟩
  · intro r2 hr2
    rw [hres] at hr2
    obtain ⟨r0, hr0, rfl⟩ := List.mem_map.1 hr2
    obtain ⟨j1, j2⟩ := i1 r0 hr0
    unfold InvRes
    rw [dropRouter_name, dropRouter_peerSubs]
    by_cases hname : r0.name = n
    · have hr0r : r0 = r := findRes_unique i4 hfind hr0 hname
      have hb : (dropRouter n p r0).routerSubs =
          r0.routerSubs.filter (fun x => decide (x ≠ p)) := by
        rw [dropRouter, if_pos hname]
      rw [hb]
      refine ⟨?_, j2⟩
      rw [hname, hr0r]
      exact iff_of_false (fun hmem2 => (mem_rmStr.1 hmem2).2 rfl)
        (fun hne => hne hempty)
    · have hb : (dropRouter n p r0).routerSubs = r0.routerSubs := by
        rw [dropRouter, if_neg hname]
      rw [hb]
      refine ⟨⟨?_, ?_⟩, j2⟩
      · intro hm
        exact j1.1 (mem_rmStr.1 hm).1
      · intro hne
        exact mem_rmStr.2 ⟨j1.2 hne, hname⟩
  · intro m hm
    rw [hres]
    obtain ⟨r0, hr0, hname⟩ := i2 m (mem_rmStr.1 hm).1
    exact ⟨dropRouter n p r0, List.mem_map.2 ⟨r0, hr0, rfl⟩,
      (dropRouter_name n p r0).trans hname⟩
  · intro m hm
    rw [hres]
    obtain ⟨r0, hr0, hname⟩ := i3 m hm
    exact ⟨dropRouter n p r0, List.mem_map.2 ⟨r0, hr0, rfl⟩,
      (dropRouter_name n p r0).trans hname⟩
  · rw [hres, map_name_preserving (dropRouter_name n p)]
    exact i4

theorem inv_ite_pair {c : Prop} [Decidable c] {e1 e2 : Tables × List Event}
    (h1 : Inv e1.1) (h2 : Inv e2.1) : Inv (if c then e1 else e2).1 := by
  split
  · exact h1
  · exact h2

theorem inv_whatami_match {w : Whatami} {e1 e2 e3 : Tables × List Event}
    (h1 : Inv e1.1) (h2 : Inv e2.1) (h3 : Inv e3.1) :
    Inv (match w with | .router => e1 | .peer => e2 | _ => e3).1 := by
  cases w
  · exact h1
  · exact h2
  · exact h3

theorem inv_propagateSimple (t : Tables) (src : Face) (n : String)
    (si : SubInfo) (hinv : Inv t) :
    Inv (propagateSimpleSubscription t src n si).1 :=
  inv_transfer t (propagateSimpleSubscription t src n si).1 rfl rfl rfl hinv

theorem inv_propagateForgetSimple (t : Tables) (n : String) (hinv : Inv t) :
    Inv (propagateForgetSimpleSubscription t n).1 :=
  inv_transfer t (propagateForgetSimpleSubscription t n).1 rfl rfl rfl hinv

theorem inv_registerPeerSubscription (t : Tables) (face : Face) (n : String)
    (si : SubInfo) (p : Nat) (hinv : Inv t) :
    Inv (registerPeerSubscription t face n si p).1 := by
  unfold registerPeerSubscription
  split
  · exact hinv
  · next r hres =>
      split
      · exact hinv
      · exact inv_addPeerSub hinv
          ⟨r, (findRes_some hres).1, (findRes_some hres).2⟩

theorem inv_registerRouterCore (t : Tables) (face : Face) (n : String)
    (si : SubInfo) (p : Nat) (hinv : Inv t) :
    Inv (registerRouterCore t face n si p).1 := by
  unfold registerRouterCore
  split
  · exact hinv
  · next r hres =>
      split
      · exact hinv
      · have h1 : Inv (addRouterSub t n p) :=
          inv_addRouterSub hinv ⟨r, (findRes_some hres).1, (findRes_some hres).2⟩
        split
        · exact inv_registerPeerSubscription _ face n si _ h1
        · exact h1

theorem inv_registerRouterSubscription (t : Tables) (face : Face) (n : String)
    (si : SubInfo) (p : Nat) (hinv : Inv t) :
    Inv (registerRouterSubscription t face n si p).1 :=
  inv_propagateSimple _ face n si (inv_registerRouterCore t face n si p hinv)

theorem inv_registerClientSubscription (t : Tables) (face : Face) (n : String)
    (si : SubInfo) (hinv : Inv t) :
    Inv (registerClientSubscription t face n si) := by
  refine inv_transfer t (registerClientSubscription t face n si) rfl rfl ?_ hinv
  exact map_tierProj_pointwise (fun r => by
    by_cases h : r.name = n <;> simp [h, tierProj])

theorem inv_makeResource (t : Tables) (n : String) (hinv : Inv t) :
    Inv (makeResource t n) := by
  obtain ⟨i1, i2, i3, i4⟩ := hinv
  unfold makeResource
  by_cases h : (findRes t.resources n).isSome
  · rw [if_pos h]
    exact ⟨i1, i2, i3, i4⟩
  · rw [if_neg h]
    have hnot : ¬ ∃ r ∈ t.resources, r.name = n :=
      fun hex => h (findRes_isSome_iff.2 hex)
    refine ⟨?_, ?_, ?_, ?_⟩
    · intro r2 hr2
      rcases List.mem_append.1 hr2 with hmem | hmem
      · exact i1 r2 hmem
      · have hfr : r2 = ({ name := n, routerSubs := [], peerSubs := [], contexts := [], resMatches := [], route := [] } : Resource) := by
          simpa using hmem
        subst hfr
        refine ⟨iff_of_false ?_ (by simp), iff_of_false ?_ (by simp)⟩
        · intro hm
          exact hnot (i2 _ hm)
        · intro hm
          exact hnot (i3 _ hm)
    · intro m hm
      obtain ⟨r0, hr0, hname⟩ := i2 m hm
      exact ⟨r0, List.mem_append.2 (Or.inl hr0), hname⟩
    · intro m hm
      obtain ⟨r0, hr0, hname⟩ := i3 m hm
      exact ⟨r0, List.mem_append.2 (Or.inl hr0), hname⟩
    · rw [List.map_append]
      refine List.nodup_append.2 ⟨i4, List.nodup_singleton _, ?_⟩
      intro a ha hb
      have ha2 : a = n := by simpa using hb
      subst ha2
      obtain ⟨r0, hr0, hname⟩ := List.mem_map.1 ha
      exact hnot ⟨r0, hr0, hname⟩

theorem inv_matchResource (t : Tables) (n : String) (hinv : Inv t) :
    Inv (matchResource t n) := by
  refine inv_transfer t (matchResource t n) rfl rfl ?_ hinv
  refine map_tierProj_pointwise (fun r => ?_)
  by_cases h1 : r.name = n
  · simp [h1, tierProj]
  · by_cases h2 : nameIntersects n r.name <;> simp [h1, h2, tierProj]

theorem inv_buildMatchesDirectTables (t : Tables) (n : String) (hinv : Inv t) :
    Inv (buildMatchesDirectTables t n) := by
  refine inv_transfer t (buildMatchesDirectTables t n) rfl rfl ?_ hinv
  exact map_tierProj_pointwise (fun r => by
    by_cases h : r.name = n <;> simp [h, tierProj])

theorem inv_unregisterPeerSubscription (t : Tables) (face : Face) (n : String)
    (p : Nat) (hinv : Inv t) :
    Inv (unregisterPeerSubscription t face n p).1 := by
  unfold unregisterPeerSubscription
  split
  · exact hinv
  · next r hres =>
      split
      · next hmem =>
          split
          · next hempty => exact inv_removePeerEmpty hinv hres hempty
          · next hempty => exact inv_removePeerKeep hinv hres hmem hempty
      · exact hinv

theorem inv_unregisterRouterSubscription (t : Tables) (face : Face)
    (n : String) (p : Nat) (hinv : Inv t) :
    Inv (unregisterRouterSubscription t face n p).1 := by
  unfold unregisterRouterSubscription
  split
  · exact hinv
  · next r hres =>
      split
      · next hmem =>
          split
          · next hempty =>
              have h2 : Inv { removeRouterSub t n p with
                  routerSubsIdx := rmStr n t.routerSubsIdx } :=
                inv_removeRouterEmpty hinv hres hempty
              exact inv_propagateForgetSimple _ n
                (inv_unregisterPeerSubscription _ face n _ h2)
          · next hempty => exact inv_removeRouterKeep hinv hres hmem hempty
      · exact hinv

theorem inv_cleanRes (t : Tables) (n : String) (hinv : Inv t) :
    Inv (cleanRes t n) := by
  obtain ⟨i1, i2, i3, i4⟩ := hinv
  unfold cleanRes
  split
  · exact ⟨i1, i2, i3, i4⟩
  · next r hres =>
      split
      · next hc =>
        simp only [Bool.and_eq_true, List.isEmpty_iff] at hc
        have hrs : r.routerSubs = [] := hc.1.1.1
        have hps : r.peerSubs = [] := hc.1.1.2
        refine ⟨?_, ?_, ?_, ?_⟩
        · intro r2 hr2
          exact i1 r2 (List.mem_filter.1 hr2).1
        · intro m hm
          obtain ⟨r0, hr0, hname⟩ := i2 m hm
          refine ⟨r0, List.mem_filter.2 ⟨hr0, ?_⟩, hname⟩
          rw [decide_eq_true_eq]
          intro heq
          have hr0r : r0 = r := findRes_unique i4 hres hr0 heq
          have : r.name ∈ t.routerSubsIdx := by
            rw [← hr0r, hname]
            exact hm
          have hne := ((i1 r (findRes_some hres).1).1).1 ((findRes_some hres).2 ▸ this)
          exact hne hrs
        · intro m hm
          obtain ⟨r0, hr0, hname⟩ := i3 m hm
          refine ⟨r0, List.mem_filter.2 ⟨hr0, ?_⟩, hname⟩
          rw [decide_eq_true_eq]
          intro heq
          have hr0r : r0 = r := findRes_unique i4 hres hr0 heq
          have : r.name ∈ t.peerSubsIdx := by
            rw [← hr0r, hname]
            exact hm
          have hne := ((i1 r (findRes_some hres).1).2).1 ((findRes_some hres).2 ▸ this)
          exact hne hps
        · exact List.Nodup.sublist
            (List.Sublist.map Resource.name (List.filter_sublist t.resources)) i4
      · exact ⟨i1, i2, i3, i4⟩

theorem inv_clearCtxSubs (t : Tables) (fid : Nat) (n : String) (hinv : Inv t) :
    Inv (clearCtxSubs t fid n) := by
  refine inv_transfer t (clearCtxSubs t fid n) rfl rfl ?_ hinv
  exact map_tierProj_pointwise (fun r => by
    by_cases h : r.name = n <;> simp [h, tierProj])

theorem inv_pruneRemoteSubs (t : Tables) (fid : Nat) (n : String)
    (hinv : Inv t) : Inv (pruneRemoteSubs t fid n) :=
  inv_transfer t (pruneRemoteSubs t fid n) rfl rfl rfl hinv

theorem inv_clientCascade (t : Tables) (face : Face) (n : String)
    (hinv : Inv t) : Inv (clientCascade t face n).1 := by
  unfold clientCascade
  cases t.whatami
  · exact inv_ite_pair (inv_unregisterRouterSubscription _ _ _ _ hinv) hinv
  · exact inv_ite_pair (inv_unregisterPeerSubscription _ _ _ _ hinv) hinv
  · exact inv_ite_pair (inv_propagateForgetSimple _ _ hinv) hinv

theorem inv_lastClientForget (t : Tables) (n : String) (hinv : Inv t) :
    Inv (lastClientForget t n).1 := by
  unfold lastClientForget
  split
  · split
    · split
      · exact inv_transfer t _ rfl rfl rfl hinv
      · exact hinv
    · exact hinv
  · exact hinv

theorem inv_unregisterClientSubscription (t : Tables) (face : Face)
    (n : String) (hinv : Inv t) :
    Inv (unregisterClientSubscription t face n).1 := by
  unfold unregisterClientSubscription
  exact inv_cleanRes _ n
    (inv_lastClientForget _ n
      (inv_clientCascade _ face n
        (inv_pruneRemoteSubs _ face.id n (inv_clearCtxSubs t face.id n hinv))))

theorem inv_declareRouterSubscription (t : Tables) (face : Face) (rid : Nat)
    (sfx : String) (si : SubInfo) (p : Nat) (hinv : Inv t) :
    Inv (declareRouterSubscription t face rid sfx si p).1 := by
  unfold declareRouterSubscription
  split
  · exact hinv
  · exact inv_buildMatchesDirectTables _ _
      (inv_registerRouterSubscription _ face _ si p
        (inv_matchResource _ _ (inv_makeResource t _ hinv)))

theorem inv_declarePeerSubscription (t : Tables) (face : Face) (rid : Nat)
    (sfx : String) (si : SubInfo) (p : Nat) (hinv : Inv t) :
    Inv (declarePeerSubscription t face rid sfx si p).1 := by
  unfold declarePeerSubscription
  split
  · exact hinv
  · next pfx heq =>
      have h1 : Inv (matchResource (makeResource t (pfx ++ sfx)) (pfx ++ sfx)) :=
        inv_matchResource _ _ (inv_makeResource t _ hinv)
      have h2 : Inv (registerPeerSubscription
          (matchResource (makeResource t (pfx ++ sfx)) (pfx ++ sfx)) face
          (pfx ++ sfx) si p).1 :=
        inv_registerPeerSubscription _ _ _ _ _ h1
      exact inv_buildMatchesDirectTables _ _
        (inv_ite_pair (inv_registerRouterSubscription _ _ _ _ _ h2) h2)

theorem inv_declareClientSubscription (t : Tables) (face : Face) (rid : Nat)
    (sfx : String) (si : SubInfo) (hinv : Inv t) :
    Inv (declareClientSubscription t face rid sfx si).1 := by
  unfold declareClientSubscription
  split
  · exact hinv
  · next pfx heq =>
      have h1 : Inv (registerClientSubscription
          (matchResource (makeResource t (pfx ++ sfx)) (pfx ++ sfx)) face
          (pfx ++ sfx) si) :=
        inv_registerClientSubscription _ _ _ _
          (inv_matchResource _ _ (inv_makeResource t _ hinv))
      exact inv_buildMatchesDirectTables _ _
        (inv_whatami_match (inv_registerRouterSubscription _ _ _ _ _ h1)
          (inv_registerPeerSubscription _ _ _ _ _ h1)
          (inv_propagateSimple _ _ _ _ h1))

theorem inv_undeclareRouterSubscription (t : Tables) (face : Face) (rid : Nat)
    (sfx : String) (p : Nat) (hinv : Inv t) :
    Inv (undeclareRouterSubscription t face rid sfx p).1 := by
  unfold undeclareRouterSubscription
  split
  · exact hinv
  · split
    · exact hinv
    · exact inv_cleanRes _ _ (inv_unregisterRouterSubscription _ _ _ _ hinv)

theorem inv_undeclarePeerSubscription (t : Tables) (face : Face) (rid : Nat)
    (sfx : String) (p : Nat) (hinv : Inv t) :
    Inv (undeclarePeerSubscription t face rid sfx p).1 := by
  unfold undeclarePeerSubscription
  split
  · exact hinv
  · next pfx heq =>
      split
      · exact hinv
      · have h1 : Inv (unregisterPeerSubscription t face (pfx ++ sfx) p).1 :=
          inv_unregisterPeerSubscription _ _ _ _ hinv
        exact inv_cleanRes _ _
          (inv_ite_pair (inv_unregisterRouterSubscription _ _ _ _ h1) h1)

theorem inv_undeclareClientSubscription (t : Tables) (face : Face) (rid : Nat)
    (sfx : String) (hinv : Inv t) :
    Inv (undeclareClientSubscription t face rid sfx).1 := by
  unfold undeclareClientSubscription
  split
  · exact hinv
  · split
    · exact hinv
    · exact inv_unregisterClientSubscription _ _ _ hinv

theorem inv_applyOp (op : Op) (t : Tables) (hinv : Inv t) :
    Inv (applyOp op t).1 := by
  cases op with
  | declRouter fid rid sfx si r =>
      show Inv (match findFace t.faces fid with
        | some f => declareRouterSubscription t f rid sfx si r
        | none => (t, [])).1
      split
      · exact inv_declareRouterSubscription _ _ _ _ _ _ hinv
      · exact hinv
  | declPeer fid rid sfx si p =>
      show Inv (match findFace t.faces fid with
        | some f => declarePeerSubscription t f rid sfx si p
        | none => (t, [])).1
      split
      · exact inv_declarePeerSubscription _ _ _ _ _ _ hinv
      · exact hinv
  | declClient fid rid sfx si =>
      show Inv (match findFace t.faces fid with
        | some f => declareClientSubscription t f rid sfx si
        | none => (t, [])).1
      split
      · exact inv_declareClientSubscription _ _ _ _ _ hinv
      · exact hinv
  | undeclRouter fid rid sfx r =>
      show Inv (match findFace t.faces fid with
        | some f => undeclareRouterSubscription t f rid sfx r
        | none => (t, [])).1
      split
      · exact inv_undeclareRouterSubscription _ _ _ _ _ hinv
      · exact hinv
  | undeclPeer fid rid sfx p =>
      show Inv (match findFace t.faces fid with
        | some f => undeclarePeerSubscription t f rid sfx p
        | none => (t, [])).1
      split
      · exact inv_undeclarePeerSubscription _ _ _ _ _ hinv
      · exact hinv
  | undeclClient fid rid sfx =>
      show Inv (match findFace t.faces fid with
        | some f => undeclareClientSubscription t f rid sfx
        | none => (t, [])).1
      split
      · exact inv_undeclareClientSubscription _ _ _ _ hinv
      · exact hinv

/-- C1: for distinct faces, under a ROUTER-tier node propagate_data refuses
exactly the peer-to-peer and router-to-router pairs; under any other tier it
accepts exactly when a client is involved; and for a single face (equal ids)
it always refuses. -/
theorem propagate_data_truth_table (w srcW dstW : Whatami) (srcId dstId : Nat) :
    (srcId ≠ dstId → w = Whatami.router →
      (propagateData w srcId srcW dstId dstW = false ↔
        ((srcW = Whatami.peer ∧ dstW = Whatami.peer) ∨
         (srcW = Whatami.router ∧ dstW = Whatami.router))))
  ∧ (srcId ≠ dstId → w ≠ Whatami.router →
      (propagateData w srcId srcW dstId dstW = true ↔
        (srcW = Whatami.client ∨ dstW = Whatami.client)))
  ∧ (srcId = dstId → propagateData w srcId srcW dstId dstW = false) := by
  refine ⟨?_, ?_, ?_⟩
  · intro hne hw
    subst hw
    simp only [propagateData, hne, decide_not]
    cases srcW <;> cases dstW <;> simp
  · intro hne hw
    cases w with
    | router => exact absurd rfl hw
    | peer =>
        simp only [propagateData, hne]
        cases srcW <;> cases dstW <;> simp [hne]
    | client =>
        simp only [propagateData, hne]
        cases srcW <;> cases dstW <;> simp [hne]
  · intro heq
    simp [propagateData, heq]

/-- Witness for C1 at a concrete input: a ROUTER-tier node with a peer
source and a peer destination on distinct faces refuses the forward. -/
theorem propagate_data_truth_table_witness :
    (0 ≠ 1) ∧
      (propagateData Whatami.router 0 Whatami.peer 1 Whatami.peer = false ↔
        ((Whatami.peer = Whatami.peer ∧ Whatami.peer = Whatami.peer) ∨
         (Whatami.peer = Whatami.router ∧ Whatami.peer = Whatami.router))) :=
  ⟨by decide,
   (propagate_data_truth_table Whatami.router Whatami.peer Whatami.peer 0 1).1
     (by decide) rfl⟩

/-- C2: for every resource R and both tiers, after any completed declare or
undeclare operation applied to tables satisfying the inductive invariant, R
is in the tables tier index exactly when its own tier-set is non-empty. -/
theorem tier_index_iff_after_op (op : Op) (t : Tables) (h : Inv t) :
    ∀ r ∈ (applyOp op t).1.resources,
      (r.name ∈ (applyOp op t).1.routerSubsIdx ↔ r.routerSubs ≠ []) ∧
      (r.name ∈ (applyOp op t).1.peerSubsIdx ↔ r.peerSubs ≠ []) :=
  fun r hr => (inv_applyOp op t h).1 r hr

/-- Witness for C2: the tier-index equivalence holds for the concrete
resource created by a concrete client declaration. -/
theorem tier_index_iff_after_op_witness :
    (c2wRes.name ∈ (applyOp c2wOp c2wTables).1.routerSubsIdx ↔
      c2wRes.routerSubs ≠ []) ∧
    (c2wRes.name ∈ (applyOp c2wOp c2wTables).1.peerSubsIdx ↔
      c2wRes.peerSubs ≠ []) :=
  tier_index_iff_after_op c2wOp c2wTables
    (by unfold Inv InvRes; decide) c2wRes (by decide)

theorem findFace_some {l : List Face} {i : Nat} {f : Face}
    (h : findFace l i = some f) : f.id = i := by
  induction l with
  | nil => simp [findFace] at h
  | cons a tl ih =>
      by_cases ha : a.id = i
      · rw [findFace, if_pos ha] at h
        injection h with h
        subst h
        exact ha
      · rw [findFace, if_neg ha] at h
        exact ih h

theorem treeWalkSubscriber_shape {t : Tables} {net : Net} {root srcId : Nat}
    {n : String} {si : SubInfo} {e : Event}
    (he : e ∈ treeWalkSubscriber t net root srcId n si) :
    ∃ d ts, d ≠ srcId ∧ e = Event.subscriber d (declKey n) si (some ts) := by
  unfold treeWalkSubscriber at he
  split at he
  · simp at he
  · next ts hidx =>
      obtain ⟨child, hchild, hf⟩ := List.mem_filterMap.1 he
      split at hf
      · simp at hf
      · next cpid hnp =>
          split at hf
          · simp at hf
          · next someface hff =>
              split at hf
              · next hid =>
                  exact ⟨someface.id, ts, hid, (Option.some.inj hf).symm⟩
              · simp at hf

theorem treeWalkForget_shape {t : Tables} {net : Net} {root srcId : Nat}
    {n : String} {e : Event}
    (he : e ∈ treeWalkForget t net root srcId n) :
    ∃ d ts, d ≠ srcId ∧ e = Event.forgetSubscriber d (declKey n) (some ts) := by
  unfold treeWalkForget at he
  split at he
  · simp at he
  · next ts hidx =>
      obtain ⟨child, hchild, hf⟩ := List.mem_filterMap.1 he
      split at hf
      · simp at hf
      · next cpid hnp =>
          split at hf
          · simp at hf
          · next someface hff =>
              split at hf
              · next hid =>
                  exact ⟨someface.id, ts, hid, (Option.some.inj hf).symm⟩
              · simp at hf

theorem propagateSimple_shape {t : Tables} {src : Face} {n : String}
    {si : SubInfo} {e : Event}
    (he : e ∈ (propagateSimpleSubscription t src n si).2) :
    ∃ d, d ≠ src.id ∧ e = Event.subscriber d (declKey n) si none := by
  unfold propagateSimpleSubscription at he
  obtain ⟨dface, hd, hf⟩ := List.mem_filterMap.1 he
  split at hf
  · next hcond =>
      refine ⟨dface.id, ?_, (Option.some.inj hf).symm⟩
      unfold simplePropaCond at hcond
      simp only [Bool.and_eq_true, decide_eq_true_eq] at hcond
      exact fun h => hcond.1.1 h.symm
  · simp at hf

theorem propagateForgetSimple_shape {t : Tables} {n : String} {e : Event}
    (he : e ∈ (propagateForgetSimpleSubscription t n).2) :
    ∃ d, e = Event.forgetSubscriber d (getBestKey n "") none := by
  unfold propagateForgetSimpleSubscription at he
  obtain ⟨f, hf2, hf⟩ := List.mem_filterMap.1 he
  split at hf
  · exact ⟨f.id, (Option.some.inj hf).symm⟩
  · simp at hf

theorem registerPeer_events {t : Tables} {face : Face} {n : String}
    {si : SubInfo} {p : Nat} {e : Event}
    (he : e ∈ (registerPeerSubscription t face n si p).2) :
    ∃ d ts, d ≠ face.id ∧ e = Event.subscriber d (declKey n) si (some ts) := by
  unfold registerPeerSubscription at he
  split at he
  · simp at he
  · split at he
    · simp at he
    · exact treeWalkSubscriber_shape he

theorem registerRouterCore_events {t : Tables} {face : Face} {n : String}
    {si : SubInfo} {p : Nat} {e : Event}
    (he : e ∈ (registerRouterCore t face n si p).2) :
    ∃ d c, d ≠ face.id ∧ e = Event.subscriber d (declKey n) si c := by
  unfold registerRouterCore at he
  split at he
  · simp at he
  · split at he
    · simp at he
    · split at he
      · have he2 : e ∈ treeWalkSubscriber (addRouterSub t n p)
            (addRouterSub t n p).routersNet p face.id n si ++
            (registerPeerSubscription (addRouterSub t n p) face n si
              (addRouterSub t n p).pid).2 := he
        rcases List.mem_append.1 he2 with h | h
        · obtain ⟨d, ts, hd, hsh⟩ := treeWalkSubscriber_shape h
          exact ⟨d, some ts, hd, hsh⟩
        · obtain ⟨d, ts, hd, hsh⟩ := registerPeer_events h
          exact ⟨d, some ts, hd, hsh⟩
      · obtain ⟨d, ts, hd, hsh⟩ := treeWalkSubscriber_shape he
        exact ⟨d, some ts, hd, hsh⟩

theorem registerRouterSub_events {t : Tables} {face : Face} {n : String}
    {si : SubInfo} {p : Nat} {e : Event}
    (he : e ∈ (registerRouterSubscription t face n si p).2) :
    ∃ d c, d ≠ face.id ∧ e = Event.subscriber d (declKey n) si c := by
  have he2 : e ∈ (registerRouterCore t face n si p).2 ++
      (propagateSimpleSubscription (registerRouterCore t face n si p).1 face
        n si).2 := he
  rcases List.mem_append.1 he2 with h | h
  · exact registerRouterCore_events h
  · obtain ⟨d, hd, hsh⟩ := propagateSimple_shape h
    exact ⟨d, none, hd, hsh⟩

theorem mem_snd_ite {c : Prop} [Decidable c] {e1 e2 : Tables × List Event}
    {e : Event} (h : e ∈ (if c then e1 else e2).2) : e ∈ e1.2 ∨ e ∈ e2.2 := by
  split at h
  · exact Or.inl h
  · exact Or.inr h

theorem mem_snd_whatami {w : Whatami} {e1 e2 e3 : Tables × List Event}
    {e : Event}
    (h : e ∈ (match w with | .router => e1 | .peer => e2 | _ => e3).2) :
    e ∈ e1.2 ∨ e ∈ e2.2 ∨ e ∈ e3.2 := by
  cases w
  · exact Or.inl h
  · exact Or.inr (Or.inl h)
  · exact Or.inr (Or.inr h)

theorem unregisterPeer_events {t : Tables} {face : Face} {n : String}
    {p : Nat} {e : Event}
    (he : e ∈ (unregisterPeerSubscription t face n p).2) :
    ∃ d ts, d ≠ face.id ∧
      e = Event.forgetSubscriber d (declKey n) (some ts) := by
  unfold unregisterPeerSubscription at he
  split at he
  · simp at he
  · split at he
    · split at he
      · exact treeWalkForget_shape he
      · exact treeWalkForget_shape he
    · simp at he

theorem unregisterRouter_notReflected {t : Tables} {face : Face} {n : String}
    {p : Nat} {e : Event}
    (he : e ∈ (unregisterRouterSubscription t face n p).2) :
    NotReflected face.id e := by
  unfold unregisterRouterSubscription at he
  split at he
  · simp at he
  · split at he
    · split at he
      · have he2 : e ∈ (treeWalkForget (removeRouterSub t n p) t.routersNet
            p face.id n ++
            (unregisterPeerSubscription { removeRouterSub t n p with
              routerSubsIdx := rmStr n t.routerSubsIdx } face n
              ({ removeRouterSub t n p with
                 routerSubsIdx := rmStr n t.routerSubsIdx } : Tables).pid).2) ++
            (propagateForgetSimpleSubscription
              (unregisterPeerSubscription { removeRouterSub t n p with
                routerSubsIdx := rmStr n t.routerSubsIdx } face n
                ({ removeRouterSub t n p with
                   routerSubsIdx := rmStr n t.routerSubsIdx } : Tables).pid).1
              n).2 := he
        rcases List.mem_append.1 he2 with h | h
        · rcases List.mem_append.1 h with h2 | h2
          · obtain ⟨d, ts, hd, hsh⟩ := treeWalkForget_shape h2
            subst hsh
            exact hd
          · obtain ⟨d, ts, hd, hsh⟩ := unregisterPeer_events h2
            subst hsh
            exact hd
        · obtain ⟨d, hsh⟩ := propagateForgetSimple_shape h
          subst hsh
          trivial
      · obtain ⟨d, ts, hd, hsh⟩ := treeWalkForget_shape he
        subst hsh
        exact hd
    · simp at he

theorem lastClientForget_events {t : Tables} {n : String} {e : Event}
    (he : e ∈ (lastClientForget t n).2) :
    ∃ d, e = Event.forgetSubscriber d (getBestKey n "") none := by
  unfold lastClientForget at he
  split at he
  · split at he
    · split at he
      · have he2 : e ∈ [Event.forgetSubscriber _ (getBestKey n "") none] := he
        rcases List.mem_singleton.1 he2 with rfl
        exact ⟨_, rfl⟩
      · simp at he
    · simp at he
  · simp at he

theorem unregisterClient_notReflected {t : Tables} {face : Face} {n : String}
    {e : Event}
    (he : e ∈ (unregisterClientSubscription t face n).2) :
    NotReflected face.id e := by
  have he2 : e ∈ (clientCascade (pruneRemoteSubs (clearCtxSubs t face.id n)
      face.id n) face n).2 ++
      (lastClientForget (clientCascade (pruneRemoteSubs
        (clearCtxSubs t face.id n) face.id n) face n).1 n).2 := he
  rcases List.mem_append.1 he2 with h | h
  · unfold clientCascade at h
    rcases mem_snd_whatami h with h2 | h2 | h2
    · rcases mem_snd_ite h2 with h3 | h3
      · exact unregisterRouter_notReflected h3
      · simp at h3
    · rcases mem_snd_ite h2 with h3 | h3
      · obtain ⟨d, ts, hd, hsh⟩ := unregisterPeer_events h3
        subst hsh
        exact hd
      · simp at h3
    · rcases mem_snd_ite h2 with h3 | h3
      · obtain ⟨d, hsh⟩ := propagateForgetSimple_shape h3
        subst hsh
        trivial
      · simp at h3
  · obtain ⟨d, hsh⟩ := lastClientForget_events h
    subst hsh
    trivial

/-- C3 (amended): across every declare and undeclare operation, no
subscriber primitive and no tree-contexted forget_subscriber primitive is
ever emitted to the face that originated the operation; only a plain
forget_subscriber (no routing context) may reach it. -/
theorem no_reflected_subscriber_or_tree_forget (op : Op) (t : Tables) :
    ∀ e ∈ (applyOp op t).2, NotReflected op.srcId e := by
  intro e he
  cases op with
  | declRouter fid rid sfx si r =>
      have he2 : e ∈ (match findFace t.faces fid with
        | some f => declareRouterSubscription t f rid sfx si r
        | none => (t, [])).2 := he
      revert he2
      split
      · next f hf =>
          intro he2
          unfold declareRouterSubscription at he2
          revert he2
          split
          · intro he2; simp at he2
          · intro he2
            obtain ⟨d, c, hd, hsh⟩ := registerRouterSub_events he2
            subst hsh
            show d ≠ fid
            rw [← findFace_some hf]
            exact hd
      · intro he2; simp at he2
  | declPeer fid rid sfx si p =>
      have he2 : e ∈ (match findFace t.faces fid with
        | some f => declarePeerSubscription t f rid sfx si p
        | none => (t, [])).2 := he
      revert he2
      split
      · next f hf =>
          intro he2
          unfold declarePeerSubscription at he2
          revert he2
          split
          · intro he2; simp at he2
          · next pfx heq =>
              intro he2
              have he3 : e ∈ (registerPeerSubscription
                  (matchResource (makeResource t (pfx ++ sfx)) (pfx ++ sfx))
                  f (pfx ++ sfx) si p).2 ++
                  (if (registerPeerSubscription (matchResource (makeResource t
                      (pfx ++ sfx)) (pfx ++ sfx)) f (pfx ++ sfx) si p).1.whatami
                      = Whatami.router then
                    registerRouterSubscription (registerPeerSubscription
                      (matchResource (makeResource t (pfx ++ sfx))
                        (pfx ++ sfx)) f (pfx ++ sfx) si p).1 f (pfx ++ sfx)
                      { si with mode := SubMode.push }
                      (registerPeerSubscription (matchResource (makeResource t
                        (pfx ++ sfx)) (pfx ++ sfx)) f (pfx ++ sfx) si p).1.pid
                  else ((registerPeerSubscription (matchResource (makeResource
                    t (pfx ++ sfx)) (pfx ++ sfx)) f (pfx ++ sfx) si p).1,
                    [])).2 := he2
              rcases List.mem_append.1 he3 with h | h
              · obtain ⟨d, ts, hd, hsh⟩ := registerPeer_events h
                subst hsh
                show d ≠ fid
                rw [← findFace_some hf]
                exact hd
              · rcases mem_snd_ite h with h2 | h2
                · obtain ⟨d, c, hd, hsh⟩ := registerRouterSub_events h2
                  subst hsh
                  show d ≠ fid
                  rw [← findFace_some hf]
                  exact hd
                · simp at h2
      · intro he2; simp at he2
  | declClient fid rid sfx si =>
      have he2 : e ∈ (match findFace t.faces fid with
        | some f => declareClientSubscription t f rid sfx si
        | none => (t, [])).2 := he
      revert he2
      split
      · next f hf =>
          intro he2
          unfold declareClientSubscription at he2
          revert he2
          split
          · intro he2; simp at he2
          · next pfx heq =>
              intro he2
              rcases mem_snd_whatami he2 with h | h | h
              · obtain ⟨d, c, hd, hsh⟩ := registerRouterSub_events h
                subst hsh
                show d ≠ fid
                rw [← findFace_some hf]
                exact hd
              · obtain ⟨d, ts, hd, hsh⟩ := registerPeer_events h
                subst hsh
                show d ≠ fid
                rw [← findFace_some hf]
                exact hd
              · obtain ⟨d, hd, hsh⟩ := propagateSimple_shape h
                subst hsh
                show d ≠ fid
                rw [← findFace_some hf]
                exact hd
      · intro he2; simp at he2
  | undeclRouter fid rid sfx r =>
      have he2 : e ∈ (match findFace t.faces fid with
        | some f => undeclareRouterSubscription t f rid sfx r
        | none => (t, [])).2 := he
      revert he2
      split
      · next f hf =>
          intro he2
          unfold undeclareRouterSubscription at he2
          revert he2
          split
          · intro he2; simp at he2
          · split
            · intro he2; simp at he2
            · intro he2
              have h3 := unregisterRouter_notReflected he2
              rw [findFace_some hf] at h3
              exact h3
      · intro he2; simp at he2
  | undeclPeer fid rid sfx p =>
      have he2 : e ∈ (match findFace t.faces fid with
        | some f => undeclarePeerSubscription t f rid sfx p
        | none => (t, [])).2 := he
      revert he2
      split
      · next f hf =>
          intro he2
          unfold undeclarePeerSubscription at he2
          revert he2
          split
          · intro he2; simp at he2
          · next pfx heq =>
              split
              · intro he2; simp at he2
              · intro he2
                have he3 : e ∈ (unregisterPeerSubscription t f (pfx ++ sfx)
                    p).2 ++
                    (if ((unregisterPeerSubscription t f (pfx ++ sfx)
                        p).1.whatami = Whatami.router &&
                        noCtxSubs (unregisterPeerSubscription t f (pfx ++ sfx)
                          p).1 (pfx ++ sfx) &&
                        !(remotePeerInPeerIdx (unregisterPeerSubscription t f
                          (pfx ++ sfx) p).1)) = true then
                      unregisterRouterSubscription (unregisterPeerSubscription
                        t f (pfx ++ sfx) p).1 f (pfx ++ sfx)
                        (unregisterPeerSubscription t f (pfx ++ sfx) p).1.pid
                    else ((unregisterPeerSubscription t f (pfx ++ sfx) p).1,
                      [])).2 := he2
                rcases List.mem_append.1 he3 with h | h
                · obtain ⟨d, ts, hd, hsh⟩ := unregisterPeer_events h
                  subst hsh
                  show d ≠ fid
                  rw [← findFace_some hf]
                  exact hd
                · rcases mem_snd_ite h with h2 | h2
                  · have h3 := unregisterRouter_notReflected h2
                    rw [findFace_some hf] at h3
                    exact h3
                  · simp at h2
      · intro he2; simp at he2
  | undeclClient fid rid sfx =>
      have he2 : e ∈ (match findFace t.faces fid with
        | some f => undeclareClientSubscription t f rid sfx
        | none => (t, [])).2 := he
      revert he2
      split
      · next f hf =>
          intro he2
          unfold undeclareClientSubscription at he2
          revert he2
          split
          · intro he2; simp at he2
          · split
            · intro he2; simp at he2
            · intro he2
              have h3 := unregisterClient_notReflected he2
              rw [findFace_some hf] at h3
              exact h3
      · intro he2; simp at he2

/-- Counterexample for C3 as stated: when client 2 now undeclares, the
emptied router tier cascades into the simple forget propagation, which emits
a forget_subscriber to face 2 itself, the face that originated the
undeclaration. -/
theorem forget_reflected_to_origin_cex :
    (Op.undeclClient 2 0 "/a").srcId = 2 ∧
    Event.forgetSubscriber 2 "/a" none ∈
      (applyOp (Op.undeclClient 2 0 "/a") c3State).2 := by
  constructor
  · rfl
  · decide

/-- Witness for the amended C3 at a concrete input: the subscriber emitted
by client 1's declaration targets face 2, not the originating face 1. -/
theorem no_reflected_subscriber_or_tree_forget_witness :
    NotReflected 1 (Event.subscriber 2 "/a" pushSub none) :=
  no_reflected_subscriber_or_tree_forget (Op.declClient 1 0 "/a" pushSub)
    c3Tables (Event.subscriber 2 "/a" pushSub none) (by decide)

theorem makeResource_whatami (t : Tables) (n : String) :
    (makeResource t n).whatami = t.whatami := by
  unfold makeResource
  split <;> rfl

/-- C4: a client declaration on a ROUTER- or PEER-tier node only ever emits
subscriber primitives carrying the SubInfo with mode forced to Push, for any
originating mode; and a peer declaration on a ROUTER-tier node splits into
the peer-tier registration events, which carry the original SubInfo, and
higher-tier registration events, which all carry the Push-forced SubInfo. -/
theorem upward_registration_forces_push (t : Tables) (face : Face)
    (rid : Nat) (sfx : String) (si : SubInfo) (p : Nat) :
    ((t.whatami = Whatami.router ∨ t.whatami = Whatami.peer) →
      ∀ e ∈ (declareClientSubscription t face rid sfx si).2,
        ∃ d k c, e = Event.subscriber d k { si with mode := SubMode.push } c)
  ∧ (t.whatami = Whatami.router →
      ∃ es1 es2, (declarePeerSubscription t face rid sfx si p).2 = es1 ++ es2 ∧
        (∀ e ∈ es1, ∃ d k ts, e = Event.subscriber d k si (some ts)) ∧
        (∀ e ∈ es2, ∃ d k c,
          e = Event.subscriber d k { si with mode := SubMode.push } c)) := by
  constructor
  · intro hw e he
    revert he
    unfold declareClientSubscription
    split
    · intro he; simp at he
    · next pfx heq =>
        intro he
        have hw2 : (registerClientSubscription (matchResource (makeResource t
            (pfx ++ sfx)) (pfx ++ sfx)) face (pfx ++ sfx) si).whatami =
            t.whatami := makeResource_whatami t (pfx ++ sfx)
        have he2 : e ∈ (match (registerClientSubscription (matchResource
            (makeResource t (pfx ++ sfx)) (pfx ++ sfx)) face (pfx ++ sfx)
            si).whatami with
          | Whatami.router =>
              registerRouterSubscription (registerClientSubscription
                (matchResource (makeResource t (pfx ++ sfx)) (pfx ++ sfx))
                face (pfx ++ sfx) si) face (pfx ++ sfx)
                { si with mode := SubMode.push }
                (registerClientSubscription (matchResource (makeResource t
                  (pfx ++ sfx)) (pfx ++ sfx)) face (pfx ++ sfx) si).pid
          | Whatami.peer =>
              registerPeerSubscription (registerClientSubscription
                (matchResource (makeResource t (pfx ++ sfx)) (pfx ++ sfx))
                face (pfx ++ sfx) si) face (pfx ++ sfx)
                { si with mode := SubMode.push }
                (registerClientSubscription (matchResource (makeResource t
                  (pfx ++ sfx)) (pfx ++ sfx)) face (pfx ++ sfx) si).pid
          | _ =>
              propagateSimpleSubscription (registerClientSubscription
                (matchResource (makeResource t (pfx ++ sfx)) (pfx ++ sfx))
                face (pfx ++ sfx) si) face (pfx ++ sfx) si).2 := he
        rw [hw2] at he2
        rcases hw with hr | hr
        · rw [hr] at he2
          obtain ⟨d, c, hd, hsh⟩ := registerRouterSub_events he2
          exact ⟨d, declKey (pfx ++ sfx), c, hsh⟩
        · rw [hr] at he2
          obtain ⟨d, ts, hd, hsh⟩ := registerPeer_events he2
          exact ⟨d, declKey (pfx ++ sfx), some ts, hsh⟩
  · intro hw
    unfold declarePeerSubscription
    split
    · exact ⟨[], [], rfl, by simp, by simp⟩
    · next pfx heq =>
        refine ⟨(registerPeerSubscription (matchResource (makeResource t
            (pfx ++ sfx)) (pfx ++ sfx)) face (pfx ++ sfx) si p).2,
          (if (registerPeerSubscription (matchResource (makeResource t
              (pfx ++ sfx)) (pfx ++ sfx)) face (pfx ++ sfx) si p).1.whatami =
              Whatami.router then
            registerRouterSubscription (registerPeerSubscription
              (matchResource (makeResource t (pfx ++ sfx)) (pfx ++ sfx)) face
              (pfx ++ sfx) si p).1 face (pfx ++ sfx)
              { si with mode := SubMode.push }
              (registerPeerSubscription (matchResource (makeResource t
                (pfx ++ sfx)) (pfx ++ sfx)) face (pfx ++ sfx) si p).1.pid
          else ((registerPeerSubscription (matchResource (makeResource t
            (pfx ++ sfx)) (pfx ++ sfx)) face (pfx ++ sfx) si p).1, [])).2,
          rfl, ?_, ?_⟩
        · intro e he
          obtain ⟨d, ts, hd, hsh⟩ := registerPeer_events he
          exact ⟨d, declKey (pfx ++ sfx), ts, hsh⟩
        · intro e he
          rcases mem_snd_ite he with h | h
          · obtain ⟨d, c, hd, hsh⟩ := registerRouterSub_events h
            exact ⟨d, declKey (pfx ++ sfx), c, hsh⟩
          · simp at h

/-- Witness for C4: on the concrete ROUTER-tier tables, a client declaring a
Pull subscription still produces a Push-mode subscriber to face 2. -/
theorem upward_registration_forces_push_witness :
    ∃ d k c, Event.subscriber 2 "/a" pushSub none =
      Event.subscriber d k { pullSub with mode := SubMode.push } c :=
  (upward_registration_forces_push c3Tables c4wFace 0 "/a" pullSub 9).1
    (Or.inl rfl) (Event.subscriber 2 "/a" pushSub none) (by decide)

/-- C5 (amended): re-registering an already-present pid leaves the tier-sets
and both tables indices unchanged; a peer registration is then a complete
no-op with no primitive emitted, while a router registration still performs
the simple client propagation (which may emit subscriber primitives to
client faces that lack the resource in local_subs). -/
theorem reregistration_tier_state (t : Tables) (face : Face) (n : String)
    (si : SubInfo) (p : Nat) (r : Resource) (hres : getRes t n = some r) :
    (p ∈ r.peerSubs → registerPeerSubscription t face n si p = (t, []))
  ∧ (p ∈ r.routerSubs →
      registerRouterSubscription t face n si p =
        propagateSimpleSubscription t face n si ∧
      (registerRouterSubscription t face n si p).1.resources = t.resources ∧
      (registerRouterSubscription t face n si p).1.routerSubsIdx =
        t.routerSubsIdx ∧
      (registerRouterSubscription t face n si p).1.peerSubsIdx =
        t.peerSubsIdx) := by
  constructor
  · intro hm
    unfold registerPeerSubscription
    split
    · next heq =>
        simp [hres] at heq
    · next r2 heq =>
        rw [hres] at heq
        injection heq with heq2
        subst heq2
        split
        · rfl
        · next hnm => exact absurd hm hnm
  · intro hm
    have hcore : registerRouterCore t face n si p = (t, []) := by
      unfold registerRouterCore
      split
      · next heq =>
          simp [hres] at heq
      · next r2 heq =>
          rw [hres] at heq
          injection heq with heq2
          subst heq2
          split
          · rfl
          · next hnm => exact absurd hm hnm
    have hmain : registerRouterSubscription t face n si p =
        propagateSimpleSubscription t face n si := by
      unfold registerRouterSubscription
      rw [hcore]
      rfl
    exact ⟨hmain, by rw [hmain]; rfl, by rw [hmain]; rfl, by rw [hmain]; rfl⟩

/-- Counterexample for C5 as stated: router pid 7 is already registered for
"/a", yet re-registering it emits an outbound subscriber primitive (to the
client face that lacks "/a" in local_subs). -/
theorem router_reregistration_emits_cex :
    7 ∈ c5Res.routerSubs ∧ getRes c5Tables "/a" = some c5Res ∧
    (registerRouterSubscription c5Tables c5Face "/a" pushSub 7).2 ≠ [] := by
  refine ⟨by decide, by decide, by decide⟩

/-- Witness for the amended C5: re-registering peer pid 3 on c5Tables is a
complete no-op. -/
theorem reregistration_tier_state_witness :
    registerPeerSubscription c5Tables c5Face "/a" pushSub 3 = (c5Tables, []) :=
  (reregistration_tier_state c5Tables c5Face "/a" pushSub 3 c5Res
    (by decide)).1 (by decide)

/-- C6: when the resource exists and the pulling face's context holds a
subscription, pull_data emits one data call per entry retained in that
context's last_values, carrying the stored info and payload with the
subscription's reliability and Drop congestion control, and the new state
clears exactly that context's buffer, leaving every other context (and
every other resource) unchanged. -/
theorem pull_data_flushes_buffer (t : Tables) (face : Face) (rid : Nat)
    (sfx pfx : String) (res : Resource) (ctx : Context) (si : SubInfo)
    (hmap : getMapping face rid = some pfx)
    (hres : getRes t (pfx ++ sfx) = some res)
    (hctx : res.contexts.find? (fun c => decide (c.faceId = face.id)) =
      some ctx)
    (hsi : ctx.subs = some si) :
    (pullData t face rid sfx).2 = ctx.lastValues.map (fun nv =>
      Event.dataMsg face.id (getBestKey t.rootName nv.1) nv.2.2 si.reliability
        CongestionControl.drop nv.2.1 none) ∧
    (pullData t face rid sfx).1 = clearPullBuffer t (pfx ++ sfx) face.id := by
  unfold pullData
  split
  · next heq => simp [hmap] at heq
  · next pfx2 heq =>
      rw [hmap] at heq
      injection heq with heq2
      subst heq2
      split
      · next heq3 => simp [hres] at heq3
      · next res2 heq3 =>
          rw [hres] at heq3
          injection heq3 with heq4
          subst heq4
          split
          · next heq5 => simp [hctx] at heq5
          · next ctx2 heq5 =>
              rw [hctx] at heq5
              injection heq5 with heq6
              subst heq6
              split
              · next heq7 => simp [hsi] at heq7
              · next si2 heq7 =>
                  rw [hsi] at heq7
                  injection heq7 with heq8
                  subst heq8
                  exact ⟨rfl, rfl⟩

/-- Witness for C6: pulling on the concrete tables emits exactly the two
buffered samples. -/
theorem pull_data_flushes_buffer_witness :
    (pullData c6Tables c6Face 0 "/q").2 =
      c6Ctx.lastValues.map (fun nv =>
        Event.dataMsg c6Face.id (getBestKey c6Tables.rootName nv.1) nv.2.2
          pullSub.reliability CongestionControl.drop nv.2.1 none) :=
  (pull_data_flushes_buffer c6Tables c6Face 0 "/q" "" c6Res c6Ctx pullSub
    (by decide) (by decide) (by decide) (by decide)).1

theorem lookupLV_insertLV (k : String) (v : Option DataInfo × Nat)
    (l : List (String × (Option DataInfo × Nat))) :
    lookupLV k (insertLV k v l) = some v := by
  induction l with
  | nil => simp [insertLV, lookupLV]
  | cons a tl ih =>
      obtain ⟨k2, v2⟩ := a
      by_cases h : k2 = k
      · simp [insertLV, lookupLV, h]
      · simp [insertLV, lookupLV, h, ih]

theorem findRes_map_name_preserving {l : List Resource}
    {g : Resource → Resource} (h : ∀ r, (g r).name = r.name) (n : String) :
    findRes (l.map g) n = (findRes l n).map g := by
  induction l with
  | nil => rfl
  | cons a tl ih =>
      by_cases ha : a.name = n
      · simp [findRes, h a, ha]
      · simp [findRes, h a, ha, ih]

theorem pullCtxUpd_faceId (full : String) (v : Option DataInfo × Nat)
    (c : Context) : (pullCtxUpd full v c).faceId = c.faceId := by
  unfold pullCtxUpd
  split
  · split <;> rfl
  · rfl

theorem pullCtxUpd_subs (full : String) (v : Option DataInfo × Nat)
    (c : Context) : (pullCtxUpd full v c).subs = c.subs := by
  unfold pullCtxUpd
  split
  · next si heq => split <;> rw [heq]
  · rfl

theorem pullCtxUpd_pull {full : String} {v : Option DataInfo × Nat}
    {c : Context} {si : SubInfo} (hsubs : c.subs = some si)
    (hpull : si.mode = SubMode.pull) :
    pullCtxUpd full v c = { c with lastValues := insertLV full v c.lastValues } := by
  unfold pullCtxUpd
  split
  · next si2 heq =>
      rw [hsubs] at heq
      injection heq with heq2
      subst heq2
      rw [if_pos hpull]
  · next heq => simp [hsubs] at heq

theorem getRoute_fast {t : Tables} {face : Face} {rid : Nat}
    {sfx pfx : String} {info : Option DataInfo} {payload : Nat}
    {res : Resource} (hmap : getMapping face rid = some pfx)
    (hres : getRes t (pfx ++ sfx) = some res) :
    getRoute t face rid sfx info payload =
      (bufferPullMatches t res.resMatches (pfx ++ sfx) (info, payload),
       some res.route) := by
  unfold getRoute
  split
  · next heq => simp [hmap] at heq
  · next pfx2 heq =>
      rw [hmap] at heq
      injection heq with heq2
      subst heq2
      split
      · next res2 heq3 =>
          rw [hres] at heq3
          injection heq3 with heq4
          subst heq4
          rfl
      · next heq3 => simp [hres] at heq3

theorem getRoute_slow {t : Tables} {face : Face} {rid : Nat}
    {sfx pfx : String} {info : Option DataInfo} {payload : Nat}
    (hmap : getMapping face rid = some pfx)
    (hres : getRes t (pfx ++ sfx) = none) :
    getRoute t face rid sfx info payload =
      (bufferPullIntersects t (pfx ++ sfx) (info, payload),
       some (dedupeKeys (slowPathCands t pfx sfx) [])) := by
  unfold getRoute
  split
  · next heq => simp [hmap] at heq
  · next pfx2 heq =>
      rw [hmap] at heq
      injection heq with heq2
      subst heq2
      split
      · next res2 heq3 => simp [hres] at heq3
      · rfl

theorem bufferPullMatches_getRes (t : Tables) (mnames : List String)
    (full : String) (v : Option DataInfo × Nat) (n : String) {r : Resource}
    (h : getRes t n = some r) :
    getRes (bufferPullMatches t mnames full v) n =
      some (if n ∈ mnames then
        { r with contexts := r.contexts.map (pullCtxUpd full v) } else r) := by
  have hg : ∀ r2 : Resource, ((if r2.name ∈ mnames then
      { r2 with contexts := r2.contexts.map (pullCtxUpd full v) }
      else r2) : Resource).name = r2.name := by
    intro r2
    split <;> rfl
  have h1 : getRes (bufferPullMatches t mnames full v) n =
      (findRes t.resources n).map (fun r2 => if r2.name ∈ mnames then
        { r2 with contexts := r2.contexts.map (pullCtxUpd full v) } else r2) :=
    findRes_map_name_preserving hg n
  rw [h1]
  have h2 : findRes t.resources n = some r := h
  rw [h2]
  simp only [Option.map_some']
  have hname : r.name = n := (findRes_some h2).2
  rw [hname]

theorem mem_dedupeKeys {x : RouteEntry} :
    ∀ {l : List RouteEntry} {s : List Nat}, x ∈ dedupeKeys l s → x ∈ l := by
  intro l
  induction l with
  | nil => intro s h; simp [dedupeKeys] at h
  | cons e es ih =>
      intro s h
      unfold dedupeKeys at h
      split at h
      · exact List.mem_cons_of_mem e (ih h)
      · rcases List.mem_cons.1 h with rfl | h2
        · exact List.mem_cons_self _ _
        · exact List.mem_cons_of_mem e (ih h2)

/-- The buffered-sample fact for the fast path of get_route: any Pull-mode
context of any listed match of an existing publication resource ends up with
the sample stored under the full name, its subscription untouched. -/
theorem fastPath_lookup (info : Option DataInfo) (payload : Nat)
    {t : Tables} {face : Face} {rid : Nat} {sfx pfx : String}
    {res : Resource} (hmap : getMapping face rid = some pfx)
    (hres : getRes t (pfx ++ sfx) = some res)
    {mn : String} (hmn : mn ∈ res.resMatches) {mres : Resource}
    (hmres : getRes t mn = some mres) {c : Context} (hc : c ∈ mres.contexts)
    {si : SubInfo} (hsubs : c.subs = some si)
    (hpull : si.mode = SubMode.pull) :
    ∃ mres2, getRes (getRoute t face rid sfx info payload).1 mn = some mres2 ∧
      ∃ c2 ∈ mres2.contexts, c2.faceId = c.faceId ∧ c2.subs = some si ∧
        lookupLV (pfx ++ sfx) c2.lastValues = some (info, payload) := by
  rw [getRoute_fast hmap hres]
  refine ⟨{ mres with contexts := mres.contexts.map (pullCtxUpd (pfx ++ sfx)
    (info, payload)) }, ?_, ?_⟩
  · rw [bufferPullMatches_getRes t res.resMatches (pfx ++ sfx)
      (info, payload) mn hmres, if_pos hmn]
  · refine ⟨pullCtxUpd (pfx ++ sfx) (info, payload) c,
      List.mem_map.2 ⟨c, hc, rfl⟩, pullCtxUpd_faceId _ _ _, ?_, ?_⟩
    · rw [pullCtxUpd_subs]
      exact hsubs
    · rw [pullCtxUpd_pull hsubs hpull]
      exact lookupLV_insertLV _ _ _

theorem bufferPullIntersects_getRes (t : Tables) (full : String)
    (v : Option DataInfo × Nat) (n : String) {r : Resource}
    (h : getRes t n = some r) :
    getRes (bufferPullIntersects t full v) n =
      some (if nameIntersects full n then
        { r with contexts := r.contexts.map (pullCtxUpd full v) } else r) := by
  have hg : ∀ r2 : Resource, ((if nameIntersects full r2.name then
      { r2 with contexts := r2.contexts.map (pullCtxUpd full v) }
      else r2) : Resource).name = r2.name := by
    intro r2
    split <;> rfl
  have h1 : getRes (bufferPullIntersects t full v) n =
      (findRes t.resources n).map (fun r2 =>
        if nameIntersects full r2.name then
          { r2 with contexts := r2.contexts.map (pullCtxUpd full v) }
        else r2) :=
    findRes_map_name_preserving hg n
  rw [h1]
  have h2 : findRes t.resources n = some r := h
  rw [h2]
  simp only [Option.map_some']
  have hname : r.name = n := (findRes_some h2).2
  rw [hname]

theorem bufferPullIntersects_getRes_none (t : Tables) (full : String)
    (v : Option DataInfo × Nat) (n : String) (h : getRes t n = none) :
    getRes (bufferPullIntersects t full v) n = none := by
  have hg : ∀ r2 : Resource, ((if nameIntersects full r2.name then
      { r2 with contexts := r2.contexts.map (pullCtxUpd full v) }
      else r2) : Resource).name = r2.name := by
    intro r2
    split <;> rfl
  have h1 : getRes (bufferPullIntersects t full v) n =
      (findRes t.resources n).map (fun r2 =>
        if nameIntersects full r2.name then
          { r2 with contexts := r2.contexts.map (pullCtxUpd full v) }
        else r2) :=
    findRes_map_name_preserving hg n
  rw [h1]
  have h2 : findRes t.resources n = none := h
  rw [h2]
  rfl

/-- The buffered-sample fact for the slow path of get_route: when the exact
publication resource is absent, any Pull-mode context of any arena resource
whose name intersects the full published name ends up with the sample
stored under the full name, its subscription untouched. -/
theorem slowPath_lookup (info : Option DataInfo) (payload : Nat)
    {t : Tables} {face : Face} {rid : Nat} {sfx pfx : String}
    (hmap : getMapping face rid = some pfx)
    (hresN : getRes t (pfx ++ sfx) = none)
    {mn : String} (hint : nameIntersects (pfx ++ sfx) mn)
    {mres : Resource} (hmres : getRes t mn = some mres)
    {c : Context} (hc : c ∈ mres.contexts)
    {si : SubInfo} (hsubs : c.subs = some si)
    (hpull : si.mode = SubMode.pull) :
    ∃ mres2, getRes (getRoute t face rid sfx info payload).1 mn = some mres2 ∧
      ∃ c2 ∈ mres2.contexts, c2.faceId = c.faceId ∧ c2.subs = some si ∧
        lookupLV (pfx ++ sfx) c2.lastValues = some (info, payload) := by
  rw [getRoute_slow hmap hresN]
  refine ⟨{ mres with contexts := mres.contexts.map (pullCtxUpd (pfx ++ sfx)
    (info, payload)) }, ?_, ?_⟩
  · rw [bufferPullIntersects_getRes t (pfx ++ sfx) (info, payload) mn hmres,
      if_pos hint]
  · refine ⟨pullCtxUpd (pfx ++ sfx) (info, payload) c,
      List.mem_map.2 ⟨c, hc, rfl⟩, pullCtxUpd_faceId _ _ _, ?_, ?_⟩
    · rw [pullCtxUpd_subs]
      exact hsubs
    · rw [pullCtxUpd_pull hsubs hpull]
      exact lookupLV_insertLV _ _ _

/-- C7: for every publication routed via get_route, every Pull-mode
subscribing context of every matching resource receives the full
concatenated name mapped to the sample in its last_values (overwriting any
prior entry, so after two successive publications under the same key only
the second remains) — on the fast path the matches are the publication
resource's match list, on the slow path the resources whose names intersect
the published name; and on the slow path every entry of the returned
DataRoute stems from a Push-mode context, so Pull-mode contexts never
appear in it. -/
theorem pull_buffering_spec (t : Tables) (face : Face) (rid : Nat)
    (sfx pfx : String) (info info2 : Option DataInfo)
    (payload payload2 : Nat) :
    (getMapping face rid = some pfx →
      ∀ res, getRes t (pfx ++ sfx) = some res →
      ∀ mn ∈ res.resMatches, ∀ mres, getRes t mn = some mres →
      ∀ c ∈ mres.contexts, ∀ si, c.subs = some si →
      si.mode = SubMode.pull →
        (∃ mres2,
          getRes (getRoute t face rid sfx info payload).1 mn = some mres2 ∧
          ∃ c2 ∈ mres2.contexts, c2.faceId = c.faceId ∧
            lookupLV (pfx ++ sfx) c2.lastValues = some (info, payload)) ∧
        (∃ mres3,
          getRes (getRoute (getRoute t face rid sfx info payload).1 face rid
            sfx info2 payload2).1 mn = some mres3 ∧
          ∃ c3 ∈ mres3.contexts, c3.faceId = c.faceId ∧
            lookupLV (pfx ++ sfx) c3.lastValues = some (info2, payload2)))
  ∧ (getMapping face rid = some pfx → getRes t (pfx ++ sfx) = none →
      ((getRoute t face rid sfx info payload).2 =
        some (dedupeKeys (slowPathCands t pfx sfx) []) ∧
      ∀ en ∈ dedupeKeys (slowPathCands t pfx sfx) [],
        ∃ m ∈ t.resources, nameIntersects (pfx ++ sfx) m.name ∧
          ∃ c ∈ m.contexts, ∃ si, c.subs = some si ∧
            si.mode = SubMode.push ∧ en.dstId = c.faceId) ∧
      (∀ mn, nameIntersects (pfx ++ sfx) mn →
       ∀ mres, getRes t mn = some mres →
       ∀ c ∈ mres.contexts, ∀ si, c.subs = some si →
       si.mode = SubMode.pull →
        (∃ mres2,
          getRes (getRoute t face rid sfx info payload).1 mn = some mres2 ∧
          ∃ c2 ∈ mres2.contexts, c2.faceId = c.faceId ∧
            lookupLV (pfx ++ sfx) c2.lastValues = some (info, payload)) ∧
        (∃ mres3,
          getRes (getRoute (getRoute t face rid sfx info payload).1 face rid
            sfx info2 payload2).1 mn = some mres3 ∧
          ∃ c3 ∈ mres3.contexts, c3.faceId = c.faceId ∧
            lookupLV (pfx ++ sfx) c3.lastValues = some (info2, payload2)))) := by
  constructor
  · intro hmap res hres mn hmn mres hmres c hc si hsubs hpull
    constructor
    · obtain ⟨mres2, h1, c2, hc2, hf2, _, hl2⟩ :=
        fastPath_lookup info payload hmap hres hmn hmres hc hsubs hpull
      exact ⟨mres2, h1, c2, hc2, hf2, hl2⟩
    · obtain ⟨mres2, hmres2, c2, hc2, hface2, hsubs2, _⟩ :=
        fastPath_lookup info payload hmap hres hmn hmres hc hsubs hpull
      have hres1 : getRes (getRoute t face rid sfx info payload).1
          (pfx ++ sfx) = some (if (pfx ++ sfx) ∈ res.resMatches then
            { res with contexts := res.contexts.map (pullCtxUpd (pfx ++ sfx)
              (info, payload)) } else res) := by
        rw [getRoute_fast hmap hres]
        exact bufferPullMatches_getRes t res.resMatches (pfx ++ sfx)
          (info, payload) (pfx ++ sfx) hres
      have hmn1 : mn ∈ ((if (pfx ++ sfx) ∈ res.resMatches then
          { res with contexts := res.contexts.map (pullCtxUpd (pfx ++ sfx)
            (info, payload)) } else res : Resource)).resMatches := by
        split <;> exact hmn
      obtain ⟨mres3, hmres3, c3, hc3, hface3, _, hl3⟩ :=
        fastPath_lookup info2 payload2 hmap hres1 hmn1 hmres2 hc2 hsubs2 hpull
      exact ⟨mres3, hmres3, c3, hc3, hface3.trans hface2, hl3⟩
  · intro hmap hresN
    refine ⟨⟨by rw [getRoute_slow hmap hresN], ?_⟩, ?_⟩
    · intro en hen
      have hen2 := mem_dedupeKeys hen
      unfold slowPathCands at hen2
      obtain ⟨m, hm, hen3⟩ := List.mem_flatMap.1 hen2
      obtain ⟨hm1, hm2⟩ := List.mem_filter.1 hm
      obtain ⟨c, hc, hf⟩ := List.mem_filterMap.1 hen3
      split at hf
      · next si heq =>
          split at hf
          · next hpush =>
              injection hf with hf2
              refine ⟨m, hm1, by simpa using hm2, c, hc, si, heq, hpush, ?_⟩
              rw [← hf2]
          · simp at hf
      · simp at hf
    · intro mn hint mres hmres c hc si hsubs hpull
      constructor
      · obtain ⟨mres2, h1, c2, hc2, hf2, _, hl2⟩ :=
          slowPath_lookup info payload hmap hresN hint hmres hc hsubs hpull
        exact ⟨mres2, h1, c2, hc2, hf2, hl2⟩
      · obtain ⟨mres2, hmres2, c2, hc2, hface2, hsubs2, _⟩ :=
          slowPath_lookup info payload hmap hresN hint hmres hc hsubs hpull
        have hresN1 : getRes (getRoute t face rid sfx info payload).1
            (pfx ++ sfx) = none := by
          rw [getRoute_slow hmap hresN]
          exact bufferPullIntersects_getRes_none t (pfx ++ sfx)
            (info, payload) (pfx ++ sfx) hresN
        obtain ⟨mres3, hmres3, c3, hc3, hface3, _, hl3⟩ :=
          slowPath_lookup info2 payload2 hmap hresN1 hint hmres2 hc2 hsubs2
            hpull
        exact ⟨mres3, hmres3, c3, hc3, hface3.trans hface2, hl3⟩

/-- Witness for C7: on the concrete slow-path tables the returned route is
the deduplicated Push-candidate list (the Pull context is absent from it),
and the Pull context of the intersecting universal-pattern resource has the
published sample buffered under the full name. -/
theorem pull_buffering_spec_witness :
    (getRoute c7Tables c6Face 0 "/q" none 42).2 =
      some (dedupeKeys (slowPathCands c7Tables "" "/q") []) ∧
    (∃ mres2,
      getRes (getRoute c7Tables c6Face 0 "/q" none 42).1 "/**" = some mres2 ∧
      ∃ c2 ∈ mres2.contexts, c2.faceId = c7PullCtx.faceId ∧
        lookupLV ("" ++ "/q") c2.lastValues = some (none, 42)) := by
  have h := (pull_buffering_spec c7Tables c6Face 0 "/q" "" none none 42 42).2
    (by decide) (by decide)
  exact ⟨h.1.1, (h.2 "/**" (by decide) c7Res (by decide) c7PullCtx (by decide)
    pullSub (by decide) (by decide)).1⟩

theorem getRoute_hlc (t : Tables) (face : Face) (rid : Nat) (sfx : String)
    (info : Option DataInfo) (payload : Nat) :
    (getRoute t face rid sfx info payload).1.hlc = t.hlc := by
  unfold getRoute
  split
  · rfl
  · split <;> rfl

theorem getRoute_whatami (t : Tables) (face : Face) (rid : Nat) (sfx : String)
    (info : Option DataInfo) (payload : Nat) :
    (getRoute t face rid sfx info payload).1.whatami = t.whatami := by
  unfold getRoute
  split
  · rfl
  · split <;> rfl

/-- C9: with an HLC configured, a sample refused by the timestamp gate
produces no data call at all, and an accepted sample produces exactly one
data call per route entry admitted by the propagate_data predicate. -/
theorem route_data_hlc_gate (t : Tables) (face : Face) (rid : Nat)
    (sfx : String) (cc : CongestionControl) (info : Option DataInfo)
    (payload : Nat) (h : HLC) (hhlc : t.hlc = some h) :
    ((∃ msg, treatTimestamp h info = Except.error msg) →
      (routeData t face rid sfx cc info payload).2 = [])
  ∧ (∀ di, treatTimestamp h info = Except.ok di →
      ∀ t1 route, getRoute t face rid sfx info payload = (t1, some route) →
        (routeData t face rid sfx cc info payload).2 =
          route.filterMap (fun en =>
            if propagateData t.whatami face.id face.whatami en.dstId
                en.dstWhatami then
              some (Event.dataMsg en.dstId en.reskey payload
                Reliability.reliable cc di none)
            else none)) := by
  constructor
  · rintro ⟨msg, herr⟩
    unfold routeData
    split
    · rfl
    · next t1 route heq =>
        have h3 : t1.hlc = t.hlc := by
          have h2 := getRoute_hlc t face rid sfx info payload
          rw [heq] at h2
          simpa using h2
        have hh : t1.hlc = some h := by
          rw [h3]
          exact hhlc
        rw [hh]
        show (match treatTimestamp h info with
          | Except.ok di => (t1, emitRoute t1.whatami face cc payload di route)
          | Except.error _ => (t1, [])).2 = []
        rw [herr]
  · intro di hok t1 route heq
    unfold routeData
    rw [heq]
    have h3 : t1.hlc = t.hlc := by
      have h2 := getRoute_hlc t face rid sfx info payload
      rw [heq] at h2
      simpa using h2
    have hh : t1.hlc = some h := by
      rw [h3]
      exact hhlc
    show (match t1.hlc with
      | some h2 =>
          match treatTimestamp h2 info with
          | Except.ok di2 => (t1, emitRoute t1.whatami face cc payload di2 route)
          | Except.error _ => (t1, [])
      | none => (t1, emitRoute t1.whatami face cc payload info route)).2 = _
    rw [hh]
    show (match treatTimestamp h info with
      | Except.ok di2 => (t1, emitRoute t1.whatami face cc payload di2 route)
      | Except.error _ => (t1, [])).2 = _
    rw [hok]
    show emitRoute t1.whatami face cc payload di route = _
    have hw : t1.whatami = t.whatami := by
      have h2 := getRoute_whatami t face rid sfx info payload
      rw [heq] at h2
      simpa using h2
    rw [hw]
    rfl

/-- Witness for C9: the concrete rejected sample produces no data call. -/
theorem route_data_hlc_gate_witness :
    (routeData c9Tables c10Face 0 "/q" CongestionControl.drop (some c9Info)
      42).2 = [] :=
  (route_data_hlc_gate c9Tables c10Face 0 "/q" CongestionControl.drop
    (some c9Info) 42 c9Hlc rfl).1 ⟨"clock skew", rfl⟩

/-- C10: the pull-buffer side effect of get_route precedes the HLC gate: a
sample whose timestamp the HLC refuses is dropped (no data call), yet the
Pull-mode context has already buffered it, and a subsequent pull delivers
the rejected sample. -/
theorem pull_buffer_retains_hlc_dropped_sample :
    (routeData c9Tables c10Face 0 "/q" CongestionControl.drop (some c9Info)
      42).2 = [] ∧
    treatTimestamp c9Hlc (some c9Info) = Except.error "clock skew" ∧
    (pullData (routeData c9Tables c10Face 0 "/q" CongestionControl.drop
      (some c9Info) 42).1 c6Face 0 "/**").2 =
      [Event.dataMsg 1 "/q" 42 Reliability.reliable CongestionControl.drop
        (some c9Info) none] :=
  ⟨rfl, rfl, rfl⟩

/-- C8 evaluated at the failing input: although remote router pid 1 still
subscribes to "/z" (so the claim and the spec forbid the forget), the code
checks peer_subs of the router-indexed resources instead of router_subs,
sees no remote pid, and emits the last-client forget_subscriber to face 2. -/
theorem remote_router_sub_ignored_by_last_forget :
    (1 ∈ c8Res.routerSubs ∧ 1 ≠ c8Tables.pid ∧
      "/z" ∈ c8Tables.routerSubsIdx) ∧
    (undeclareClientSubscription c8Tables c8Face3 0 "/z").2 =
      [Event.forgetSubscriber 2 "/z" none] :=
  ⟨⟨by decide, by decide, by decide⟩, by decide⟩

end ZenohPubsub
